import Mathlib

/-!
Verification of the rules_pkg comparison tooling: a shallow embedding of
the cpio writer, the RPM header builder and writer, the UDIF/HFS+ dmg
reader and the pkg reader, with theorems about the specified properties.
-/

namespace Spec2Proof

/-- Canonical entry type flowing through every reader
(contrib/tools/lib/tree_reader.py FileInfo). -/
structure FileInfo where
  path : String
  size : Nat
  mode : Nat
  uid : Nat
  gid : Nat
  is_dir : Bool
  is_symlink : Bool
  symlink_target : Option String
deriving DecidableEq, Repr

instance : IsTotal FileInfo (fun a b => a.path ≤ b.path) :=
  ⟨fun a b => le_total a.path b.path⟩

instance : IsTrans FileInfo (fun a b => a.path ≤ b.path) :=
  ⟨fun _ _ _ h h' => le_trans h h'⟩

/-- Sorting of reader item lists, modelling Python
`items.sort(key=lambda x: x.path)` (a stable sort by the `path` string). -/
def sortByPath (l : List FileInfo) : List FileInfo :=
  l.insertionSort (fun a b => a.path ≤ b.path)

/-! ## Byte-level helpers (Python `str.encode("utf-8")`, `f"{v:08X}"`,
`struct.pack(">H"/">I")`) -/

/-- UTF-8 encoding of a single Unicode code point (Python `chr(c)` encoded). -/
def utf8Char (c : Nat) : List Nat :=
  if c < 0x80 then [c]
  else if c < 0x800 then [0xC0 + c / 64, 0x80 + c % 64]
  else if c < 0x10000 then
    [0xE0 + c / 4096, 0x80 + c / 64 % 64, 0x80 + c % 64]
  else
    [0xF0 + c / 262144, 0x80 + c / 4096 % 64, 0x80 + c / 64 % 64, 0x80 + c % 64]

/-- Python `s.encode("utf-8")` as a byte list. -/
def utf8 (s : String) : List Nat := s.data.flatMap (fun ch => utf8Char ch.toNat)

/-- ASCII bytes of a pure-ASCII literal string. -/
def asciiOf (s : String) : List Nat := s.data.map Char.toNat

/-- ASCII code of the uppercase hex digit for `n < 16`. -/
def hexDigitChar (n : Nat) : Nat := if n < 10 then 48 + n else 55 + n

/-- Uppercase hex digits of `n` (empty for 0), most significant first. -/
def hexRep : Nat → List Nat
  | 0 => []
  | n + 1 => hexRep ((n + 1) / 16) ++ [hexDigitChar ((n + 1) % 16)]
decreasing_by exact Nat.div_lt_self (Nat.succ_pos n) (by omega)

/-- Bytes of Python `f"{v:08X}"`: zero-padded to at least eight uppercase
hex digits (more digits when the value needs them). -/
def pad8hex (v : Nat) : List Nat :=
  List.replicate (8 - (hexRep v).length) 48 ++ hexRep v

/-- Big-endian `struct.pack(">H", v)` (valid for `v < 2^16`; the callers
guard the range as `struct.pack` raises outside it). -/
def u16be (v : Nat) : List Nat := [v / 256, v % 256]

/-- Big-endian `struct.pack(">I", v)` (valid for `v < 2^32`). -/
def u32be (v : Nat) : List Nat :=
  [v / 16777216, v / 65536 % 256, v / 256 % 256, v % 256]

/-! ## HFS+ catalog walker (contrib/tools/lib/dmg_reader.py) -/

def ROOT_PARENT_CNID : Nat := 1
def ROOT_FOLDER_CNID : Nat := 2
def sIFLNK : Nat := 0o120000
def sIFDIR : Nat := 0o040000
def sIFREG : Nat := 0o100000
def sIFMT : Nat := 0o170000

/-- Catalog record type kept by `HfsPlusReader._parse_catalog_record`
(thread records are skipped at parse time and never stored). -/
inductive HfsRecType where
  | folder
  | file
deriving DecidableEq, Repr

/-- One value of `HfsPlusReader.entries`: `(parent_cnid, name, record_type,
info)` with `info = {mode, uid, gid}` for folders and additionally
`{size, extents}` for files (folders carry `size = 0`, `extents = []`). -/
structure HfsEntry where
  parent : Nat
  name : String
  rtype : HfsRecType
  mode : Nat
  uid : Nat
  gid : Nat
  size : Nat
  extents : List (Nat × Nat)
deriving DecidableEq, Repr

/-- State of an `HfsPlusReader` after `_read_catalog`: the raw image, the
volume block size, and the catalog entries in insertion order (`entries`
is a Python dict `cnid -> entry`; insertion order is iteration order). -/
structure HfsData where
  image : List Nat
  blockSize : Nat
  entries : List (Nat × HfsEntry)
deriving DecidableEq, Repr

/-- The `while` loop of `HfsPlusReader.build_path`, with explicit fuel:
one fuel unit per iteration; `none` means the fuel ran out before the
loop exited.  Each iteration requires `current ∈ entries` and
`current ∉ seen`, records `current` in `seen`, appends the entry's name,
and stops when the parent is a root CNID. -/
def buildPathLoop (entries : List (Nat × HfsEntry)) :
    Nat → Nat → List Nat → List String → Option (List String)
  | 0, _, _, _ => none
  | fuel + 1, current, seen, parts =>
    match entries.lookup current with
    | none => some parts
    | some e =>
      if current ∈ seen then some parts
      else if e.parent = ROOT_FOLDER_CNID ∨ e.parent = ROOT_PARENT_CNID then
        some (parts ++ [e.name])
      else buildPathLoop entries fuel e.parent (current :: seen) (parts ++ [e.name])

/-- `HfsPlusReader.build_path`: walk the `parent_cnid` chain guarded by a
visited set, then reverse the collected names and join with "/".  The
fuel `entries.length + 1` always suffices (theorem below). -/
def build_path (entries : List (Nat × HfsEntry)) (cnid : Nat) : String :=
  let parts := (buildPathLoop entries (entries.length + 1) cnid [] []).getD []
  String.intercalate "/" parts.reverse

/-- `HfsPlusReader.read_file`: concatenate the data-fork extents and
truncate to the logical size; errors mirror the two `raise ValueError`. -/
def readFileE (h : HfsData) (cnid : Nat) : Except String (List Nat) :=
  match h.entries.lookup cnid with
  | none => .error "CNID not found"
  | some e =>
    match e.rtype with
    | .folder => .error "CNID is not a file"
    | .file =>
      let data := e.extents.foldl
        (fun acc ext =>
          acc ++ ((h.image.drop (ext.1 * h.blockSize)).take (ext.2 * h.blockSize)))
        []
      .ok (data.take e.size)

/-- The `FileInfo` appended by one iteration of
`HfsPlusReader.get_all_files`, or `none` when the iteration `continue`s
(root folder, empty path). -/
def hfsItemOf (entries : List (Nat × HfsEntry)) (cnid : Nat) (e : HfsEntry) :
    Option FileInfo :=
  if cnid = ROOT_FOLDER_CNID then none
  else
    let path := build_path entries cnid
    if path = "" then none
    else
      let mode_raw := e.mode
      let file_type_bits := mode_raw &&& sIFMT
      let is_symlink := file_type_bits = sIFLNK
      let is_dir := e.rtype = HfsRecType.folder
      let mode_raw :=
        if is_dir ∧ mode_raw = 0 then sIFDIR ||| 0o755
        else if ¬is_dir ∧ ¬is_symlink ∧ mode_raw = 0 then 0o100644
        else mode_raw
      match e.rtype with
      | .folder =>
        some { path := path, size := 0,
               mode := if mode_raw ≠ 0 then mode_raw else sIFDIR ||| 0o755,
               uid := e.uid, gid := e.gid,
               is_dir := true, is_symlink := false, symlink_target := none }
      | .file =>
        let size := e.size
        let size := if is_symlink then 0 else size
        some { path := path, size := if is_symlink then 0 else size,
               mode := mode_raw, uid := e.uid, gid := e.gid,
               is_dir := false, is_symlink := is_symlink,
               symlink_target := none }

/-- `HfsPlusReader.get_all_files`: iterate the entries dict in insertion
order, collect the items, and sort by path. -/
def get_all_files (entries : List (Nat × HfsEntry)) : List FileInfo :=
  let items := entries.foldl
    (fun items pe =>
      match hfsItemOf entries pe.1 pe.2 with
      | none => items
      | some it => items ++ [it])
    []
  sortByPath items

/-! ## PkgReader item accumulation (contrib/tools/lib/pkg_reader.py)

`PkgReader._load` extracts each XAR Payload, gunzips it and appends the
cpio entries of each payload to `self.items`, in order; `next()` walks
`self.items` front to back.  The cpio entry sequence of each payload is
abstract input here: per spec section 4.6 the cpio reader (not among the
sources) yields entries in archive order.  No sort is applied anywhere
in `PkgReader`. -/

def pkgItems (payloadEntries : List (List FileInfo)) : List FileInfo :=
  payloadEntries.foldl (fun acc l => acc ++ l) []

/-! ## DmgReader (contrib/tools/lib/dmg_reader.py, `_load`) -/

def xarMagicBytes : List Nat := [120, 97, 114, 33]

/-- Python `s.endswith(suffix)`. -/
def strEndsWith (s suffix : String) : Bool := suffix.data.isSuffixOf s.data

/-- The body of the `try` block for one `.pkg` candidate in
`DmgReader._load`: read the file, skip (without warning) unless the bytes
start with "xar!", otherwise parse the inner pkg.  `pkgParse` abstracts
`PkgReader(pkg_data=...)` construction plus full iteration (all of which
happens before anything is appended); an `Except.error` models the raised
exception. -/
def pkgAttempt (pkgParse : List Nat → Except String (List FileInfo))
    (h : HfsData) (cnid : Nat) : Except String (Option (List FileInfo)) := do
  let pkg_bytes ← readFileE h cnid
  if pkg_bytes = [] ∨ pkg_bytes.take 4 ≠ xarMagicBytes then
    pure none
  else do
    let inner ← pkgParse pkg_bytes
    pure (some inner)

/-- One iteration of the `.pkg` recursion loop of `DmgReader._load`:
non-pkg entries are skipped; a successful inner parse appends its entries
with the "@PKG@/" prefix; an exception appends a warning instead. -/
def dmgStep (pkgParse : List Nat → Except String (List FileInfo)) (h : HfsData)
    (acc : List FileInfo × List String) (pe : Nat × HfsEntry) :
    List FileInfo × List String :=
  if pe.2.rtype = HfsRecType.file ∧ strEndsWith pe.2.name ".pkg" then
    let pkg_path := build_path h.entries pe.1
    match pkgAttempt pkgParse h pe.1 with
    | .error e =>
      (acc.1, acc.2 ++ ["WARNING: Failed to read pkg " ++ pkg_path ++ ": " ++ e])
    | .ok none => acc
    | .ok (some inner) =>
      (acc.1 ++ inner.map (fun fi => { fi with path := "@PKG@/" ++ fi.path }), acc.2)
  else acc

/-- `DmgReader._load`: HFS+ enumeration, `.pkg` recursion, final sort.
Returns the item list exposed by `next()` and the warnings printed to
stderr. -/
def dmgLoad (pkgParse : List Nat → Except String (List FileInfo))
    (h : HfsData) : List FileInfo × List String :=
  let base := get_all_files h.entries
  let res := h.entries.foldl (dmgStep pkgParse h) (base, [])
  (sortByPath res.1, res.2)

/-- The `.pkg` contribution of one catalog entry to `DmgReader.items`
(what the loop appends for it). -/
def pkgContribution (pkgParse : List Nat → Except String (List FileInfo))
    (h : HfsData) (pe : Nat × HfsEntry) : List FileInfo :=
  if pe.2.rtype = HfsRecType.file ∧ strEndsWith pe.2.name ".pkg" then
    match pkgAttempt pkgParse h pe.1 with
    | .ok (some inner) => inner.map (fun fi => { fi with path := "@PKG@/" ++ fi.path })
    | _ => []
  else []

/-- The warning contribution of one catalog entry in `DmgReader._load`. -/
def pkgWarningOf (pkgParse : List Nat → Except String (List FileInfo))
    (h : HfsData) (pe : Nat × HfsEntry) : List String :=
  if pe.2.rtype = HfsRecType.file ∧ strEndsWith pe.2.name ".pkg" then
    match pkgAttempt pkgParse h pe.1 with
    | .error e =>
      ["WARNING: Failed to read pkg " ++ build_path h.entries pe.1 ++ ": " ++ e]
    | _ => []
  else []

/-! ## UDIF chunk decompression (contrib/tools/lib/dmg_reader.py,
`decompress_udif`, lines 197-246: the per-chunk loop) -/

def BLOCK_ZERO_FILL : Nat := 0x00000000
def BLOCK_RAW : Nat := 0x00000001
def BLOCK_IGNORE : Nat := 0x00000002
def BLOCK_ZLIB : Nat := 0x80000005
def BLOCK_BZ2 : Nat := 0x80000006
def BLOCK_LZFSE : Nat := 0x80000007
def BLOCK_LZMA : Nat := 0x80000008
def BLOCK_ADC : Nat := 0x80000004
def BLOCK_COMMENT : Nat := 0x7FFFFFFE
def BLOCK_TERMINATOR : Nat := 0xFFFFFFFF

/-- One blkx chunk entry as produced by `parse_blkx_chunks` (the
`compressed_offset` already includes the mish `data_offset`). -/
structure BlkxChunk where
  type : Nat
  sector_number : Nat
  sector_count : Nat
  compressed_offset : Nat
  compressed_length : Nat
deriving DecidableEq, Repr

/-- The external codecs used by `decompress_udif`.  `zlib.decompress` and
friends report failure by raising, modelled as `Except.error`; `lzfseD =
none` models `import liblzfse` raising `ImportError`. -/
structure UdifCodecs where
  zlibD : List Nat → Except String (List Nat)
  bz2D : List Nat → Except String (List Nat)
  lzmaD : List Nat → Except String (List Nat)
  lzfseD : Option (List Nat → Nat → Except String (List Nat))

/-- Warnings `decompress_udif` prints to stderr. -/
inductive UdifWarning where
  | adcSkipped (sector : Nat)
  | unknownType (t : Nat)
deriving DecidableEq, Repr

/-- Python `f.seek(off); f.read(len)` on an in-memory file. -/
def fileRead (file : List Nat) (off len : Nat) : List Nat :=
  (file.drop off).take len

/-- Python `image[dest:dest+len(data)] = data` on a bytearray (the slice
is replaced; past-the-end slices append, as in Python). -/
def writeAt (image : List Nat) (dest : Nat) (data : List Nat) : List Nat :=
  image.take dest ++ data ++ image.drop (dest + data.length)

/-- The body of `for chunk in all_chunks` in `decompress_udif`: returns
the updated image and any warning, or the propagated exception. -/
def processChunk (c : UdifCodecs) (file : List Nat) (image : List Nat)
    (ch : BlkxChunk) : Except String (List Nat × List UdifWarning) :=
  let dest_offset := ch.sector_number * 512
  let expected_size := ch.sector_count * 512
  if ch.type = BLOCK_TERMINATOR ∨ ch.type = BLOCK_COMMENT ∨ ch.type = BLOCK_IGNORE then
    .ok (image, [])
  else if ch.type = BLOCK_ZERO_FILL then
    .ok (image, [])
  else
    let compressed := fileRead file ch.compressed_offset ch.compressed_length
    if ch.type = BLOCK_RAW then
      .ok (writeAt image dest_offset compressed, [])
    else if ch.type = BLOCK_ZLIB then
      (c.zlibD compressed).map (fun d => (writeAt image dest_offset d, []))
    else if ch.type = BLOCK_BZ2 then
      (c.bz2D compressed).map (fun d => (writeAt image dest_offset d, []))
    else if ch.type = BLOCK_LZMA then
      (c.lzmaD compressed).map (fun d => (writeAt image dest_offset d, []))
    else if ch.type = BLOCK_LZFSE then
      match c.lzfseD with
      | some f =>
        (f compressed expected_size).map (fun d => (writeAt image dest_offset d, []))
      | none => .error "LZFSE compression requires pyliblzfse: pip install pyliblzfse"
    else if ch.type = BLOCK_ADC then
      .ok (image, [.adcSkipped ch.sector_number])
    else
      .ok (image, [.unknownType ch.type])

/-- The chunk loop of `decompress_udif`: an exception in any chunk aborts
the whole enumeration; warnings accumulate. -/
def decompressChunks (c : UdifCodecs) (file : List Nat) :
    List BlkxChunk → List Nat → List UdifWarning →
    Except String (List Nat × List UdifWarning)
  | [], image, warns => .ok (image, warns)
  | ch :: rest, image, warns =>
    match processChunk c file image ch with
    | .error e => .error e
    | .ok (img, w) => decompressChunks c file rest img (warns ++ w)

/-! ## RPM payload compression versus the PAYLOADCOMPRESSOR tag
(contrib/tools/lib/rpm_writer.py, `_build_header` line 434 and
`_compress_payload`) -/

/-- The abstract payload encodings an RPM payload can carry. -/
inductive PayloadEnc where
  | gz
  | xzEnc
  | bz2Enc
  | raw
deriving DecidableEq, Repr

/-- The string written for tag 1125 by `RpmWriter._build_header`:
`self.compression if self.compression != "none" else "gzip"`. -/
def payloadCompressorTag (compression : String) : String :=
  if compression ≠ "none" then compression else "gzip"

/-- The encoding `RpmWriter._compress_payload` actually applies to the
cpio bytes, abstracted to its codec (branch order as in the source). -/
def compressPayloadEnc (compression : String) : Except String PayloadEnc :=
  if compression = "none" then .ok .raw
  else if compression = "gzip" then .ok .gz
  else if compression = "xz" then .ok .xzEnc
  else if compression = "bzip2" then .ok .bz2Enc
  else .error ("Unknown compression: " ++ compression)

/-- Modelled from the spec: the RPM reader (contrib/tools/lib/rpm_file.py,
absent from the sources) selects the payload decoder from the tag-1125
string: "gzip", "xz", "bzip2" or "none" (spec section 4.13). -/
def decoderFor (tag : String) : Option PayloadEnc :=
  if tag = "gzip" then some .gz
  else if tag = "xz" then some .xzEnc
  else if tag = "bzip2" then some .bz2Enc
  else if tag = "none" then some .raw
  else none

/-! ## RPM header builder (contrib/tools/lib/rpm_writer.py,
`RpmHeaderBuilder`) -/

/-- The per-tag value sum type of the header builder.  The `add_*`
methods construct INT16, INT32, STRING, STRING_ARRAY, I18NSTRING and
BIN entries; INT64 exists as a type code (5, aligned to 4 bytes) but the
emission match in `build` has no branch for it and raises. -/
inductive HVal where
  | int16 (vs : List Nat)
  | int32 (vs : List Nat)
  | int64 (vs : List Nat)
  | str (s : String)
  | strArray (vs : List String)
  | i18n (s : String)
  | bin (bs : List Nat)
deriving DecidableEq, Repr

/-- Header type code of a value (HEADER_INT16 = 3, ...). -/
def typeCode : HVal → Nat
  | .int16 _ => 3
  | .int32 _ => 4
  | .int64 _ => 5
  | .str _ => 6
  | .bin _ => 7
  | .strArray _ => 8
  | .i18n _ => 9

/-- Data-store alignment applied before a value (INT16 → 2,
INT32/INT64 → 4, others unaligned). -/
def alignOf : HVal → Nat
  | .int16 _ => 2
  | .int32 _ => 4
  | .int64 _ => 4
  | _ => 1

/-- `while data_store.tell() % a: data_store.write(b'\x00')`. -/
def padTo (store : List Nat) (a : Nat) : List Nat :=
  store ++ List.replicate ((a - store.length % a) % a) 0

/-- The value bytes and count written by one iteration of the emission
loop of `RpmHeaderBuilder.build`; `struct.pack` range failures and the
unhandled-type `ValueError` are the error cases. -/
def emitValue : HVal → Except String (List Nat × Nat)
  | .int16 vs =>
    if vs.all (· < 65536) then .ok (vs.flatMap u16be, vs.length)
    else .error "struct.error"
  | .int32 vs =>
    if vs.all (· < 4294967296) then .ok (vs.flatMap u32be, vs.length)
    else .error "struct.error"
  | .str s => .ok (utf8 s ++ [0], 1)
  | .strArray vs => .ok (vs.flatMap (fun s => utf8 s ++ [0]), vs.length)
  | .i18n s => .ok (utf8 s ++ [0], 1)
  | .bin bs => .ok (bs, bs.length)
  | .int64 _ => .error "Unsupported header type: 5"

/-- One 16-byte index entry `(tag, type, offset, count)`. -/
structure IdxEntry where
  tag : Nat
  dtype : Nat
  offset : Nat
  count : Nat
deriving DecidableEq, Repr

instance : IsTotal (Nat × HVal) (fun a b => a.1 ≤ b.1) :=
  ⟨fun a b => Nat.le_total a.1 b.1⟩

instance : IsTrans (Nat × HVal) (fun a b => a.1 ≤ b.1) :=
  ⟨fun _ _ _ h h' => le_trans h h'⟩

/-- `self.entries.sort(key=lambda x: x[0])` (a stable sort by tag). -/
def sortEntries (entries : List (Nat × HVal)) : List (Nat × HVal) :=
  entries.insertionSort (fun a b => a.1 ≤ b.1)

/-- The emission loop of `RpmHeaderBuilder.build`: for each entry, align
the data store, compute the offset, write the value, and record the
index entry. -/
def buildLoop : List (Nat × HVal) → List IdxEntry → List Nat →
    Except String (List IdxEntry × List Nat)
  | [], idx, store => .ok (idx, store)
  | (tag, v) :: rest, idx, store =>
    let store1 := padTo store (alignOf v)
    match emitValue v with
    | .error e => .error e
    | .ok bc =>
      buildLoop rest (idx ++ [⟨tag, typeCode v, store1.length, bc.2⟩]) (store1 ++ bc.1)

/-- `RpmHeaderBuilder.build`: sort by tag, run the emission loop, then
assemble magic, version, reserved bytes, entry count, store size, the
16-byte index entries and the data store.  The `struct.pack(">I", ...)`
calls of the assembly require their arguments below `2^32`. -/
def headerBuild (entries : List (Nat × HVal)) : Except String (List Nat) :=
  match buildLoop (sortEntries entries) [] [] with
  | .error e => .error e
  | .ok (idx, store) =>
    if idx.length < 4294967296 ∧ store.length < 4294967296 ∧
        idx.all (fun en => decide (en.tag < 4294967296) &&
          decide (en.offset < 4294967296) && decide (en.count < 4294967296)) then
      .ok ([0x8e, 0xad, 0xe8] ++ [1] ++ [0, 0, 0, 0] ++
        u32be idx.length ++ u32be store.length ++
        idx.flatMap (fun en => u32be en.tag ++ u32be en.dtype ++
          u32be en.offset ++ u32be en.count) ++
        store)
    else .error "struct.error"

/-- The count the claim assigns to each value kind (element count for
arrays and integers, 1 for strings, byte length for BIN). -/
def countOf : HVal → Nat
  | .int16 vs => vs.length
  | .int32 vs => vs.length
  | .int64 vs => vs.length
  | .str _ => 1
  | .strArray vs => vs.length
  | .i18n _ => 1
  | .bin bs => bs.length

/-- The bytes a supported value contributes to the data store. -/
def valBytes : HVal → List Nat
  | .int16 vs => vs.flatMap u16be
  | .int32 vs => vs.flatMap u32be
  | .int64 _ => []
  | .str s => utf8 s ++ [0]
  | .strArray vs => vs.flatMap (fun s => utf8 s ++ [0])
  | .i18n s => utf8 s ++ [0]
  | .bin bs => bs

/-- Upper bound on the store bytes one entry adds (3 padding bytes at
most, then the value bytes). -/
def entrySizeUB (e : Nat × HVal) : Nat := 3 + (valBytes e.2).length

/-- A header entry the emission loop can serialize: not INT64, integer
values within `struct.pack` range, and index fields within `">I"` range. -/
def supportedEntry (e : Nat × HVal) : Bool :=
  decide (e.1 < 4294967296) && decide (countOf e.2 < 4294967296) &&
    (match e.2 with
     | .int16 vs => vs.all (· < 65536)
     | .int32 vs => vs.all (· < 4294967296)
     | .int64 _ => false
     | _ => true)

/-! ## RPM writer main header (contrib/tools/lib/rpm_writer.py,
`RpmWriter._build_header`) -/

/-- The kind-specific payload of a file added to `RpmWriter`
(`add_file` stores content, `add_directory` and `add_symlink` store
`content = b''`; only `add_symlink` stores a target). -/
inductive RKind where
  | reg (content : List Nat)
  | dir
  | symlink (target : String)
deriving DecidableEq, Repr

/-- One element of `RpmWriter.files`. -/
structure RFile where
  path : String
  kind : RKind
  mode : Nat
  uid : Nat
  gid : Nat
  user : String
  group : String
deriving DecidableEq, Repr

/-- `f['content']` (empty bytes for directories and symlinks). -/
def contentOf : RKind → List Nat
  | .reg c => c
  | _ => []

/-- Python `path.lstrip('/')`. -/
def lstripSlash (s : String) : String := ⟨s.data.dropWhile (· = '/')⟩

/-- Index of the last '/' in a character list (Python `p.rfind('/')`). -/
def rfindSlash (l : List Char) : Option Nat :=
  (l.reverse.findIdx? (· = '/')).map (fun j => l.length - 1 - j)

/-- Python `os.path.dirname(p)` (posixpath): everything up to the last
slash, with trailing slashes stripped unless the head is all slashes. -/
def pyDirname (s : String) : String :=
  match rfindSlash s.data with
  | none => ""
  | some i =>
    let head := s.data.take (i + 1)
    if head ≠ [] ∧ head.any (· ≠ '/') then
      ⟨(head.reverse.dropWhile (· = '/')).reverse⟩
    else ⟨head⟩

/-- Python `os.path.basename(p)` (posixpath). -/
def pyBasename (s : String) : String :=
  match rfindSlash s.data with
  | none => s
  | some i => ⟨s.data.drop (i + 1)⟩

/-- The dirname string computed for a file in `_build_header`:
`'/' + dirname + '/'`, or `'/'` when the stripped path has no parent. -/
def dirnameFor (f : RFile) : String :=
  let p := lstripSlash f.path
  let d := pyDirname p
  if d ≠ "" then "/" ++ d ++ "/" else "/"

def basenameFor (f : RFile) : String := pyBasename (lstripSlash f.path)

/-- One iteration of the dirname bookkeeping in `_build_header`: the
`dirs` dict (as an association list in insertion order), `dir_list` and
`dirindexes`. -/
def dirIndexStep (acc : List (String × Nat) × List String × List Nat)
    (d : String) : List (String × Nat) × List String × List Nat :=
  match acc.1.lookup d with
  | some k => (acc.1, acc.2.1, acc.2.2 ++ [k])
  | none => (acc.1 ++ [(d, acc.2.1.length)], acc.2.1 ++ [d], acc.2.2 ++ [acc.2.1.length])

def dirIndexes (ds : List String) : List (String × Nat) × List String × List Nat :=
  ds.foldl dirIndexStep ([], [], [])

/-- The per-file arrays `_build_header` accumulates (each Python
`append`-per-iteration loop is written as the corresponding map). -/
structure FileArrays where
  dir_list : List String
  dirindexes : List Nat
  basenames : List String
  sizes : List Nat
  modes : List Nat
  rdevs : List Nat
  mtimes : List Nat
  md5s : List String
  linktos : List String
  fflags : List Nat
  users : List String
  groups : List String
  devices : List Nat
  inodes : List Nat
  langs : List String
  verifyflags : List Nat
deriving DecidableEq, Repr

/-- The file-array section of `RpmWriter._build_header`.  `md5hex`
abstracts `hashlib.md5(content).hexdigest()`; `t` is `int(time.time())`
at build time. -/
def buildFileArrays (md5hex : List Nat → String) (t : Nat)
    (files : List RFile) : FileArrays :=
  let di := dirIndexes (files.map dirnameFor)
  { dir_list := di.2.1
    dirindexes := di.2.2
    basenames := files.map basenameFor
    sizes := files.map (fun f => (contentOf f.kind).length)
    modes := files.map (fun f => f.mode)
    rdevs := files.map (fun _ => 0)
    mtimes := files.map (fun _ => t)
    md5s := files.map (fun f =>
      match f.kind with
      | .symlink _ => ""
      | .dir => ""
      | .reg c => md5hex c)
    linktos := files.map (fun f =>
      match f.kind with
      | .symlink target => target
      | _ => "")
    fflags := files.map (fun _ => 0)
    users := files.map (fun f => f.user)
    groups := files.map (fun f => f.group)
    devices := files.map (fun _ => 1)
    inodes := (List.range files.length).map (· + 1)
    langs := files.map (fun _ => "")
    verifyflags := files.map (fun _ => 0xFFFFFFFF) }

/-- Package metadata held by `RpmWriter.__init__`. -/
structure RpmMeta where
  name : String
  version : String
  release : String
  arch : String
  os_name : String
  summary : String
  description : String
  license_text : String
  group : String
  compression : String
deriving DecidableEq, Repr

/-- The `(tag, value)` entries `RpmWriter._build_header` adds, in call
order (BUILDTIME and every FILEMTIMES entry use the wall clock `t`). -/
def buildHeaderEntries (md5hex : List Nat → String) (m : RpmMeta)
    (files : List RFile) (t : Nat) : List (Nat × HVal) :=
  [(1000, .str m.name), (1001, .str m.version), (1002, .str m.release),
   (1004, .i18n m.summary), (1005, .i18n m.description),
   (1006, .int32 [t]),
   (1007, .str "localhost"),
   (1014, .str m.license_text), (1016, .i18n m.group),
   (1021, .str m.os_name), (1022, .str m.arch),
   (1044, .str (m.name ++ "-" ++ m.version ++ "-" ++ m.release ++ ".src.rpm")),
   (1064, .str "4.0"),
   (1124, .str "cpio"),
   (1125, .str (payloadCompressorTag m.compression)),
   (1126, .str "9")] ++
  (if files = [] then []
   else
     let a := buildFileArrays md5hex t files
     [(1118, .strArray a.dir_list), (1117, .strArray a.basenames),
      (1116, .int32 a.dirindexes), (1028, .int32 a.sizes),
      (1030, .int16 a.modes), (1033, .int16 a.rdevs),
      (1034, .int32 a.mtimes), (1035, .strArray a.md5s),
      (1036, .strArray a.linktos), (1037, .int32 a.fflags),
      (1039, .strArray a.users), (1040, .strArray a.groups),
      (1095, .int32 a.devices), (1096, .int32 a.inodes),
      (1097, .strArray a.langs), (1045, .int32 a.verifyflags),
      (1009, .int32 [a.sizes.sum])])

/-- `RpmWriter._build_header`: the serialized main header bytes. -/
def rpmMainHeader (md5hex : List Nat → String) (m : RpmMeta)
    (files : List RFile) (t : Nat) : Except String (List Nat) :=
  headerBuild (buildHeaderEntries md5hex m files t)

/-! ## CPIO writer (tools/lib/cpio_writer.py) -/

/-- `CpioWriter._pad_to_4`. -/
def pad4 (size : Nat) : Nat := (4 - size % 4) % 4

/-- The 110-byte (for in-range fields) ASCII header written by
`CpioWriter._write_header`: magic "070701" followed by thirteen
`f"{v:08X}"` fields, checksum last and always 0. -/
def cpioHeader (inode mode uid gid nlink mtime filesize devmajor devminor
    rdevmajor rdevminor namesize : Nat) : List Nat :=
  asciiOf "070701" ++ pad8hex inode ++ pad8hex mode ++ pad8hex uid ++
    pad8hex gid ++ pad8hex nlink ++ pad8hex mtime ++ pad8hex filesize ++
    pad8hex devmajor ++ pad8hex devminor ++ pad8hex rdevmajor ++
    pad8hex rdevminor ++ pad8hex namesize ++ pad8hex 0

/-- Writer state: the auto-increment inode counter (starting at 1) and
the bytes written to the stream so far. -/
structure CpioWState where
  inode : Nat
  out : List Nat
deriving DecidableEq, Repr

/-- `CpioWriter._write_header`: header, NUL-terminated path, then NUL
padding to a 4-byte boundary of `110 + namesize`. -/
def cpioWriteHeader (st : CpioWState) (path : String) (mode uid gid nlink
    mtime filesize devmajor devminor rdevmajor rdevminor : Nat) : CpioWState :=
  let path_bytes := utf8 path ++ [0]
  let namesize := path_bytes.length
  { inode := st.inode + 1
    out := st.out ++
      cpioHeader st.inode mode uid gid nlink mtime filesize devmajor
        devminor rdevmajor rdevminor namesize ++
      path_bytes ++ List.replicate (pad4 (110 + namesize)) 0 }

/-- `CpioWriter.add_file`: OR in `S_IFREG` when the mode lacks file-type
bits, write header and content, pad content to a 4-byte boundary. -/
def cpioAddFile (st : CpioWState) (path : String) (content : List Nat)
    (mode uid gid mtime : Nat) : CpioWState :=
  let mode := if mode &&& 0o170000 = 0 then mode ||| sIFREG else mode
  let st := cpioWriteHeader st path mode uid gid 1 mtime content.length 0 0 0 0
  { st with out := st.out ++ content ++ List.replicate (pad4 content.length) 0 }

/-- `CpioWriter.add_directory`: OR in `S_IFDIR` when needed, `nlink=2`,
no content. -/
def cpioAddDir (st : CpioWState) (path : String)
    (mode uid gid mtime : Nat) : CpioWState :=
  let mode := if mode &&& 0o170000 = 0 then mode ||| sIFDIR else mode
  cpioWriteHeader st path mode uid gid 2 mtime 0 0 0 0 0

/-- `CpioWriter.add_symlink`: OR in `S_IFLNK` when needed, the target
bytes are the entry's content. -/
def cpioAddSymlink (st : CpioWState) (path target : String)
    (mode uid gid mtime : Nat) : CpioWState :=
  let target_bytes := utf8 target
  let mode := if mode &&& 0o170000 = 0 then mode ||| sIFLNK else mode
  let st := cpioWriteHeader st path mode uid gid 1 mtime target_bytes.length 0 0 0 0
  { st with out := st.out ++ target_bytes ++
      List.replicate (pad4 target_bytes.length) 0 }

/-- `CpioWriter.finish`: the `TRAILER!!!` sentinel entry (mode 0,
nlink 1, no content). -/
def cpioFinish (st : CpioWState) : CpioWState :=
  cpioWriteHeader st "TRAILER!!!" 0 0 0 1 0 0 0 0 0 0

/-- One `add_*` call on the writer. -/
inductive CpioOp where
  | file (path : String) (content : List Nat) (mode uid gid mtime : Nat)
  | dir (path : String) (mode uid gid mtime : Nat)
  | symlink (path target : String) (mode uid gid mtime : Nat)
deriving DecidableEq, Repr

def cpioApply (st : CpioWState) : CpioOp → CpioWState
  | .file p c m u g t => cpioAddFile st p c m u g t
  | .dir p m u g t => cpioAddDir st p m u g t
  | .symlink p tg m u g t => cpioAddSymlink st p tg m u g t

/-- A sequence of `add_*` calls on a writer. -/
def cpioRun (st : CpioWState) (ops : List CpioOp) : CpioWState :=
  ops.foldl cpioApply st

/-- The path of an `add_*` call. -/
def opPath : CpioOp → String
  | .file p _ _ _ _ _ => p
  | .dir p _ _ _ _ => p
  | .symlink p _ _ _ _ _ => p

/-- The caller-supplied mode of an `add_*` call. -/
def opMode : CpioOp → Nat
  | .file _ _ m _ _ _ => m
  | .dir _ m _ _ _ => m
  | .symlink _ _ m _ _ _ => m

def opUid : CpioOp → Nat
  | .file _ _ _ u _ _ => u
  | .dir _ _ u _ _ => u
  | .symlink _ _ _ u _ _ => u

def opGid : CpioOp → Nat
  | .file _ _ _ _ g _ => g
  | .dir _ _ _ g _ => g
  | .symlink _ _ _ _ g _ => g

def opMtime : CpioOp → Nat
  | .file _ _ _ _ _ t => t
  | .dir _ _ _ _ t => t
  | .symlink _ _ _ _ _ t => t

/-- The `S_IF*` bits the writer ORs in for the call kind. -/
def opTypeBits : CpioOp → Nat
  | .file _ _ _ _ _ _ => sIFREG
  | .dir _ _ _ _ _ => sIFDIR
  | .symlink _ _ _ _ _ _ => sIFLNK

/-- The mode actually written: the caller's mode, with the kind's
`S_IF*` bits ORed in when the mode lacks file-type bits. -/
def opWrittenMode (op : CpioOp) : Nat :=
  if opMode op &&& 0o170000 = 0 then opMode op ||| opTypeBits op else opMode op

/-- `nlink` written for the call kind (directories default to 2). -/
def opNlink : CpioOp → Nat
  | .dir _ _ _ _ _ => 2
  | _ => 1

/-- The content bytes of the entry (symlink targets are written as
content; directories have none). -/
def opBody : CpioOp → List Nat
  | .file _ c _ _ _ _ => c
  | .dir _ _ _ _ _ => []
  | .symlink _ tg _ _ _ _ => utf8 tg

/-- `namesize`: UTF-8 path length plus the NUL terminator. -/
def opNamesize (op : CpioOp) : Nat := (utf8 (opPath op)).length + 1

/-- The complete byte block one `add_*` call appends to the stream, for
a writer whose inode counter is `ino`. -/
def cpioEntryBytes (ino : Nat) (op : CpioOp) : List Nat :=
  cpioHeader ino (opWrittenMode op) (opUid op) (opGid op) (opNlink op)
    (opMtime op) (opBody op).length 0 0 0 0 (opNamesize op) ++
  (utf8 (opPath op) ++ [0]) ++ List.replicate (pad4 (110 + opNamesize op)) 0 ++
  opBody op ++ List.replicate (pad4 (opBody op).length) 0

/-- A byte that is an ASCII uppercase hex digit. -/
def isHexByte (b : Nat) : Prop := (48 ≤ b ∧ b ≤ 57) ∨ (65 ≤ b ∧ b ≤ 70)

/-- Numeric fields of an `add_*` call within `2^32`, so that every
`f"{v:08X}"` field is exactly 8 digits. -/
def cpioOpOk (op : CpioOp) : Prop :=
  opMode op < 4294967296 ∧ opUid op < 4294967296 ∧ opGid op < 4294967296 ∧
    opMtime op < 4294967296 ∧ (opBody op).length < 4294967296 ∧
    opNamesize op < 4294967296

instance (op : CpioOp) : Decidable (cpioOpOk op) := by
  unfold cpioOpOk; infer_instance

/-- The header bytes of one `add_*` call for inode `ino`. -/
def cpioHeaderOf (ino : Nat) (op : CpioOp) : List Nat :=
  cpioHeader ino (opWrittenMode op) (opUid op) (opGid op) (opNlink op)
    (opMtime op) (opBody op).length 0 0 0 0 (opNamesize op)

/-- The byte blocks of a sequence of `add_*` calls, the inode counter
incrementing by one per entry. -/
def cpioBlocks (ino : Nat) : List CpioOp → List Nat
  | [] => []
  | op :: rest => cpioEntryBytes ino op ++ cpioBlocks (ino + 1) rest

instance {ε α : Type} [DecidableEq ε] [DecidableEq α] :
    DecidableEq (Except ε α) := fun a b =>
  match a, b with
  | .ok x, .ok y =>
    if h : x = y then isTrue (by rw [h]) else isFalse (by intro hc; cases hc; exact h rfl)
  | .error x, .error y =>
    if h : x = y then isTrue (by rw [h]) else isFalse (by intro hc; cases hc; exact h rfl)
  | .ok _, .error _ => isFalse (by intro hc; cases hc)
  | .error _, .ok _ => isFalse (by intro hc; cases hc)

/-- A concrete metadata record used to exhibit time dependence. -/
def exMeta : RpmMeta :=
  { name := "pkg", version := "1", release := "1", arch := "noarch",
    os_name := "linux", summary := "s", description := "d",
    license_text := "L", group := "G", compression := "gzip" }

/-! # Theorems -/

theorem sortByPath_sorted (l : List FileInfo) :
    (sortByPath l).Sorted (fun a b => a.path ≤ b.path) := by
  exact List.sorted_insertionSort _ l

theorem sortByPath_perm (l : List FileInfo) : (sortByPath l).Perm l :=
  List.perm_insertionSort _ l

/-! ## C4: payload compression versus the tag-1125 string -/

/-- C4 (counterexample): with `compression = "none"` the payload is left
uncompressed but the header carries PAYLOADCOMPRESSOR "gzip", so the
decoder an RPM reader selects from tag 1125 does not match the actual
payload encoding. -/
theorem c4_none_tag_mismatch :
    compressPayloadEnc "none" = .ok PayloadEnc.raw ∧
    payloadCompressorTag "none" = "gzip" ∧
    decoderFor (payloadCompressorTag "none") = some PayloadEnc.gz ∧
    decoderFor (payloadCompressorTag "none") ≠ (compressPayloadEnc "none").toOption := by
  refine ⟨by decide, by decide, by decide, by decide⟩

/-- C4 (amended): for the compression settings "gzip", "xz" and "bzip2"
the PAYLOADCOMPRESSOR string equals the setting and the decoder selected
from it matches the payload encoding; for "none" the payload stays
uncompressed while the tag reads "gzip" (see the counterexample). -/
theorem c4_payload_compressor_matches (comp : String)
    (h : comp = "gzip" ∨ comp = "xz" ∨ comp = "bzip2") :
    payloadCompressorTag comp = comp ∧
    decoderFor (payloadCompressorTag comp) = (compressPayloadEnc comp).toOption := by
  rcases h with h | h | h <;> subst h <;> exact ⟨by decide, by decide⟩

/-- C4 witness: the amended theorem applied at `compression = "xz"`. -/
theorem c4_payload_compressor_matches_witness :
    payloadCompressorTag "xz" = "xz" ∧
    decoderFor (payloadCompressorTag "xz") = (compressPayloadEnc "xz").toOption :=
  c4_payload_compressor_matches "xz" (Or.inr (Or.inl rfl))

/-! ## C2: UDIF per-chunk error handling -/

/-- C2 (counterexample): neither of the claim's downgrade cases holds.
An LZFSE chunk with no codec available does not produce a
warning-and-skip: `decompress_udif` raises `ImportError`, so the
remaining chunks (here a raw chunk) are never processed; and a chunk
whose decompression fails (here a zlib chunk whose codec reports an
error) likewise aborts the enumeration with the codec's error instead
of being warned and skipped. -/
theorem c2_failures_raise :
    decompressChunks
      ⟨fun _ => .ok [], fun _ => .ok [], fun _ => .ok [], none⟩
      [1, 2, 3, 4, 5, 6, 7, 8]
      [⟨BLOCK_LZFSE, 0, 1, 0, 4⟩, ⟨BLOCK_RAW, 1, 1, 4, 4⟩] [] [] =
      .error "LZFSE compression requires pyliblzfse: pip install pyliblzfse" ∧
    decompressChunks
      ⟨fun _ => .error "Error -3 while decompressing data: incorrect header check",
       fun _ => .ok [], fun _ => .ok [], none⟩
      [1, 2, 3, 4, 5, 6, 7, 8]
      [⟨BLOCK_ZLIB, 0, 1, 0, 4⟩, ⟨BLOCK_RAW, 1, 1, 4, 4⟩] [] [] =
      .error "Error -3 while decompressing data: incorrect header check" :=
  ⟨by decide, by decide⟩

/-- C2 (amended): only ADC chunks and chunks of unknown type are
downgraded to a warning, skipped, and the loop continues (a successful
chunk of any other type produces no warning); an LZFSE chunk with no
codec available raises `ImportError`, a per-chunk decompression failure
(zlib, bzip2, lzma, or a failing LZFSE codec) propagates as that
codec's error, and any chunk error aborts the whole enumeration. -/
theorem c2_warn_skip_continue (c : UdifCodecs) (file image : List Nat)
    (ch : BlkxChunk) (rest : List BlkxChunk) (warns : List UdifWarning) :
    (ch.type = BLOCK_ADC →
      processChunk c file image ch = .ok (image, [.adcSkipped ch.sector_number]) ∧
      decompressChunks c file (ch :: rest) image warns =
        decompressChunks c file rest image (warns ++ [.adcSkipped ch.sector_number])) ∧
    (ch.type ∉ [BLOCK_ZERO_FILL, BLOCK_RAW, BLOCK_IGNORE, BLOCK_ZLIB,
        BLOCK_BZ2, BLOCK_LZFSE, BLOCK_LZMA, BLOCK_ADC, BLOCK_COMMENT,
        BLOCK_TERMINATOR] →
      processChunk c file image ch = .ok (image, [.unknownType ch.type]) ∧
      decompressChunks c file (ch :: rest) image warns =
        decompressChunks c file rest image (warns ++ [.unknownType ch.type])) ∧
    (ch.type = BLOCK_LZFSE → c.lzfseD = none →
      processChunk c file image ch =
        .error "LZFSE compression requires pyliblzfse: pip install pyliblzfse" ∧
      decompressChunks c file (ch :: rest) image warns =
        .error "LZFSE compression requires pyliblzfse: pip install pyliblzfse") ∧
    (∀ e : String,
      (ch.type = BLOCK_ZLIB →
        c.zlibD (fileRead file ch.compressed_offset ch.compressed_length) =
          .error e →
        processChunk c file image ch = .error e) ∧
      (ch.type = BLOCK_BZ2 →
        c.bz2D (fileRead file ch.compressed_offset ch.compressed_length) =
          .error e →
        processChunk c file image ch = .error e) ∧
      (ch.type = BLOCK_LZMA →
        c.lzmaD (fileRead file ch.compressed_offset ch.compressed_length) =
          .error e →
        processChunk c file image ch = .error e) ∧
      (∀ f, ch.type = BLOCK_LZFSE → c.lzfseD = some f →
        f (fileRead file ch.compressed_offset ch.compressed_length)
          (ch.sector_count * 512) = .error e →
        processChunk c file image ch = .error e)) ∧
    (∀ e : String, processChunk c file image ch = .error e →
      decompressChunks c file (ch :: rest) image warns = .error e) ∧
    (∀ (img : List Nat) (w : List UdifWarning),
      processChunk c file image ch = .ok (img, w) →
      w = [] ∨
      (ch.type = BLOCK_ADC ∧ w = [.adcSkipped ch.sector_number]) ∨
      (ch.type ∉ [BLOCK_ZERO_FILL, BLOCK_RAW, BLOCK_IGNORE, BLOCK_ZLIB,
        BLOCK_BZ2, BLOCK_LZFSE, BLOCK_LZMA, BLOCK_ADC, BLOCK_COMMENT,
        BLOCK_TERMINATOR] ∧ w = [.unknownType ch.type])) := by
  refine ⟨fun h => ?_, fun h => ?_, fun h hl => ?_, fun e => ?_, fun e hp => ?_, ?_⟩
  · have hp : processChunk c file image ch = .ok (image, [.adcSkipped ch.sector_number]) := by
      simp only [processChunk, h, BLOCK_ADC, BLOCK_TERMINATOR, BLOCK_COMMENT,
        BLOCK_IGNORE, BLOCK_ZERO_FILL, BLOCK_RAW, BLOCK_ZLIB, BLOCK_BZ2,
        BLOCK_LZMA, BLOCK_LZFSE]
      norm_num
    exact ⟨hp, by simp only [decompressChunks, hp]⟩
  · simp only [List.mem_cons, List.not_mem_nil, or_false] at h
    push_neg at h
    obtain ⟨h0, h1, h2, h5, h6, h7, h8, h4, hc, ht⟩ := h
    have hp : processChunk c file image ch = .ok (image, [.unknownType ch.type]) := by
      simp only [processChunk, BLOCK_ADC, BLOCK_TERMINATOR, BLOCK_COMMENT,
        BLOCK_IGNORE, BLOCK_ZERO_FILL, BLOCK_RAW, BLOCK_ZLIB, BLOCK_BZ2,
        BLOCK_LZMA, BLOCK_LZFSE] at *
      simp only [if_neg h0, if_neg h1, if_neg h2, if_neg h5, if_neg h6,
        if_neg h7, if_neg h8, if_neg h4]
      simp [h0, h1, h2, h5, h6, h7, h8, h4, hc, ht]
    exact ⟨hp, by simp only [decompressChunks, hp]⟩
  · have hp : processChunk c file image ch =
        .error "LZFSE compression requires pyliblzfse: pip install pyliblzfse" := by
      simp only [processChunk, h, hl, BLOCK_ADC, BLOCK_TERMINATOR, BLOCK_COMMENT,
        BLOCK_IGNORE, BLOCK_ZERO_FILL, BLOCK_RAW, BLOCK_ZLIB, BLOCK_BZ2,
        BLOCK_LZMA, BLOCK_LZFSE]
      norm_num
    exact ⟨hp, by simp only [decompressChunks, hp]⟩
  · refine ⟨fun h hz => ?_, fun h hz => ?_, fun h hz => ?_, fun f h hf hz => ?_⟩
    · simp only [processChunk, h, hz, Except.map, BLOCK_ADC, BLOCK_TERMINATOR,
        BLOCK_COMMENT, BLOCK_IGNORE, BLOCK_ZERO_FILL, BLOCK_RAW, BLOCK_ZLIB,
        BLOCK_BZ2, BLOCK_LZMA, BLOCK_LZFSE]
      norm_num
    · simp only [processChunk, h, hz, Except.map, BLOCK_ADC, BLOCK_TERMINATOR,
        BLOCK_COMMENT, BLOCK_IGNORE, BLOCK_ZERO_FILL, BLOCK_RAW, BLOCK_ZLIB,
        BLOCK_BZ2, BLOCK_LZMA, BLOCK_LZFSE]
      norm_num
    · simp only [processChunk, h, hz, Except.map, BLOCK_ADC, BLOCK_TERMINATOR,
        BLOCK_COMMENT, BLOCK_IGNORE, BLOCK_ZERO_FILL, BLOCK_RAW, BLOCK_ZLIB,
        BLOCK_BZ2, BLOCK_LZMA, BLOCK_LZFSE]
      norm_num
    · simp only [processChunk, h, hf, hz, Except.map, BLOCK_ADC, BLOCK_TERMINATOR,
        BLOCK_COMMENT, BLOCK_IGNORE, BLOCK_ZERO_FILL, BLOCK_RAW, BLOCK_ZLIB,
        BLOCK_BZ2, BLOCK_LZMA, BLOCK_LZFSE]
      norm_num
  · simp only [decompressChunks, hp]
  · intro img w hok
    simp only [processChunk] at hok
    split_ifs at hok with h1 h2 h3 h4 h5 h6 h7 h8
    · simp only [Except.ok.injEq, Prod.mk.injEq] at hok
      exact Or.inl hok.2.symm
    · simp only [Except.ok.injEq, Prod.mk.injEq] at hok
      exact Or.inl hok.2.symm
    · simp only [Except.ok.injEq, Prod.mk.injEq] at hok
      exact Or.inl hok.2.symm
    · cases hz : c.zlibD (fileRead file ch.compressed_offset ch.compressed_length) with
      | ok d =>
        rw [hz] at hok
        simp only [Except.map, Except.ok.injEq, Prod.mk.injEq] at hok
        exact Or.inl hok.2.symm
      | error e =>
        rw [hz] at hok
        simp [Except.map] at hok
    · cases hz : c.bz2D (fileRead file ch.compressed_offset ch.compressed_length) with
      | ok d =>
        rw [hz] at hok
        simp only [Except.map, Except.ok.injEq, Prod.mk.injEq] at hok
        exact Or.inl hok.2.symm
      | error e =>
        rw [hz] at hok
        simp [Except.map] at hok
    · cases hz : c.lzmaD (fileRead file ch.compressed_offset ch.compressed_length) with
      | ok d =>
        rw [hz] at hok
        simp only [Except.map, Except.ok.injEq, Prod.mk.injEq] at hok
        exact Or.inl hok.2.symm
      | error e =>
        rw [hz] at hok
        simp [Except.map] at hok
    · cases hlz : c.lzfseD with
      | none =>
        rw [hlz] at hok
        simp at hok
      | some f =>
        simp only [hlz] at hok
        cases hr : f (fileRead file ch.compressed_offset ch.compressed_length)
            (ch.sector_count * 512) with
        | ok d =>
          rw [hr] at hok
          simp only [Except.map, Except.ok.injEq, Prod.mk.injEq] at hok
          exact Or.inl hok.2.symm
        | error e =>
          rw [hr] at hok
          simp [Except.map] at hok
    · simp only [Except.ok.injEq, Prod.mk.injEq] at hok
      exact Or.inr (Or.inl ⟨h8, hok.2.symm⟩)
    · simp only [Except.ok.injEq, Prod.mk.injEq] at hok
      refine Or.inr (Or.inr ⟨?_, hok.2.symm⟩)
      intro hmem
      simp only [List.mem_cons, List.not_mem_nil, or_false] at hmem
      rcases hmem with hx | hx | hx | hx | hx | hx | hx | hx | hx | hx
      · exact h2 hx
      · exact h3 hx
      · exact h1 (Or.inr (Or.inr hx))
      · exact h4 hx
      · exact h5 hx
      · exact h7 hx
      · exact h6 hx
      · exact h8 hx
      · exact h1 (Or.inr (Or.inl hx))
      · exact h1 (Or.inl hx)

/-- C2 witness: the amended theorem at a concrete ADC chunk. -/
theorem c2_warn_skip_continue_witness :
    processChunk ⟨fun _ => .ok [], fun _ => .ok [], fun _ => .ok [], none⟩
        [] [] ⟨BLOCK_ADC, 7, 1, 0, 0⟩ = .ok ([], [.adcSkipped 7]) ∧
    decompressChunks ⟨fun _ => .ok [], fun _ => .ok [], fun _ => .ok [], none⟩
        [] [⟨BLOCK_ADC, 7, 1, 0, 0⟩] [] [] =
      decompressChunks ⟨fun _ => .ok [], fun _ => .ok [], fun _ => .ok [], none⟩
        [] [] [] ([] ++ [.adcSkipped 7]) :=
  (c2_warn_skip_continue _ [] [] ⟨BLOCK_ADC, 7, 1, 0, 0⟩ [] []).1 rfl

/-! ## C1: the FileInfo invariant of HfsPlusReader.get_all_files -/

theorem hfsItemOf_spec (entries : List (Nat × HfsEntry)) (cnid : Nat)
    (e : HfsEntry) (fi : FileInfo) (h : hfsItemOf entries cnid e = some fi) :
    (fi.is_dir = true → fi.size = 0) ∧
    (fi.is_symlink = true → fi.size = 0) ∧
    ¬(fi.is_dir = true ∧ fi.is_symlink = true) ∧
    fi.symlink_target = none := by
  simp only [hfsItemOf] at h
  split at h
  · exact absurd h (by simp)
  · split at h
    · exact absurd h (by simp)
    · split at h
      · rw [Option.some_inj] at h
        subst h
        exact ⟨fun _ => rfl, by simp, by simp, rfl⟩
      · rw [Option.some_inj] at h
        subst h
        refine ⟨by simp, fun hs => ?_, by simp, rfl⟩
        simp only [FileInfo.size]
        rw [if_pos (of_decide_eq_true hs)]

theorem mem_get_all_files (entries : List (Nat × HfsEntry)) (fi : FileInfo)
    (h : fi ∈ get_all_files entries) :
    ∃ cnid e, hfsItemOf entries cnid e = some fi := by
  unfold get_all_files at h
  rw [(sortByPath_perm _).mem_iff] at h
  suffices hs : ∀ (l : List (Nat × HfsEntry)) (acc : List FileInfo),
      fi ∈ l.foldl (fun items pe =>
        match hfsItemOf entries pe.1 pe.2 with
        | none => items
        | some it => items ++ [it]) acc →
      fi ∈ acc ∨ ∃ cnid e, hfsItemOf entries cnid e = some fi by
    rcases hs entries [] h with hc | hg
    · cases hc
    · exact hg
  intro l
  induction l with
  | nil => exact fun acc hacc => Or.inl hacc
  | cons pe rest ih =>
    intro acc hacc
    rcases ih _ hacc with hm | hg
    · have hm' : fi ∈ (match hfsItemOf entries pe.1 pe.2 with
        | none => acc
        | some it => acc ++ [it]) := hm
      cases hit : hfsItemOf entries pe.1 pe.2 with
      | none =>
        rw [hit] at hm'
        exact Or.inl hm'
      | some it =>
        rw [hit] at hm'
        rcases List.mem_append.mp hm' with h1 | h1
        · exact Or.inl h1
        · exact Or.inr ⟨pe.1, pe.2, by rw [hit, List.mem_singleton.mp h1]⟩
    · exact Or.inr hg

/-- C1 (counterexample): an HFS+ symlink entry is yielded with
`is_symlink = true` but `symlink_target = none` (`get_all_files` never
reads the target from the data fork), refuting
`is_symlink ⇒ symlink_target ≠ null`. -/
theorem c1_symlink_target_is_none :
    ∃ fi ∈ get_all_files [(3, ⟨2, "link", .file, 0o120777, 0, 0, 9, []⟩)],
      fi.is_symlink = true ∧ fi.symlink_target = none := by decide

/-- C1 (amended): for every entry yielded by
`HfsPlusReader.get_all_files`: `is_dir` implies `size = 0`, `is_symlink`
implies `size = 0`, and `is_dir` and `is_symlink` are never both true —
but `symlink_target` is `none` for every entry (the reader does not read
symlink targets), so `is_symlink` does not imply a non-null target. -/
theorem c1_fileinfo_invariant (entries : List (Nat × HfsEntry))
    (fi : FileInfo) (h : fi ∈ get_all_files entries) :
    (fi.is_dir = true → fi.size = 0) ∧
    (fi.is_symlink = true → fi.size = 0) ∧
    ¬(fi.is_dir = true ∧ fi.is_symlink = true) ∧
    fi.symlink_target = none := by
  obtain ⟨cnid, e, he⟩ := mem_get_all_files entries fi h
  exact hfsItemOf_spec entries cnid e fi he

/-- C1 witness: the amended invariant at a concrete one-folder catalog. -/
theorem c1_fileinfo_invariant_witness :
    let fi : FileInfo :=
      ⟨"f", 0, 0o40755, 0, 0, true, false, none⟩
    (fi.is_dir = true → fi.size = 0) ∧
    (fi.is_symlink = true → fi.size = 0) ∧
    ¬(fi.is_dir = true ∧ fi.is_symlink = true) ∧
    fi.symlink_target = none :=
  c1_fileinfo_invariant [(3, ⟨2, "f", .folder, 0, 0, 0, 0, []⟩)]
    ⟨"f", 0, 0o40755, 0, 0, true, false, none⟩ (by decide)

/-! ## C3: snapshot readers and sorting -/

/-- C3 (counterexample): `PkgReader` applies no sort — its items (and
hence the `next()` sequence) stay in cpio archive order, which need not
be sorted by path. -/
theorem c3_pkg_not_sorted :
    ¬ (pkgItems [[⟨"b", 0, 0o100644, 0, 0, false, false, none⟩,
        ⟨"a", 0, 0o100644, 0, 0, false, false, none⟩]]).Sorted
      (fun a b => a.path ≤ b.path) := by
  intro h
  rw [show pkgItems [[⟨"b", 0, 0o100644, 0, 0, false, false, none⟩,
        ⟨"a", 0, 0o100644, 0, 0, false, false, none⟩]] =
      [⟨"b", 0, 0o100644, 0, 0, false, false, none⟩,
        ⟨"a", 0, 0o100644, 0, 0, false, false, none⟩] from rfl] at h
  have hba : ("b" : String) ≤ "a" :=
    (List.sorted_cons.mp h).1 _ (List.mem_singleton.mpr rfl)
  rw [String.le_iff_toList_le] at hba
  exact absurd hba (by decide)

/-- C3 (amended): the hfs and dmg snapshot readers sort by path before
exposing their entries (`HfsPlusReader.get_all_files` and
`DmgReader._load` both end in a path sort); `PkgReader` does not (see
the counterexample). -/
theorem c3_hfs_dmg_sorted :
    (∀ entries : List (Nat × HfsEntry),
      (get_all_files entries).Sorted (fun a b => a.path ≤ b.path)) ∧
    (∀ (pkgParse : List Nat → Except String (List FileInfo)) (h : HfsData),
      ((dmgLoad pkgParse h).1).Sorted (fun a b => a.path ≤ b.path)) :=
  ⟨fun _ => sortByPath_sorted _, fun _ _ => sortByPath_sorted _⟩

/-! ## C9: termination of build_path -/

theorem lookup_some_mem_keys {α β : Type} [BEq α] [LawfulBEq α]
    {l : List (α × β)} {a : α} {b : β} (h : l.lookup a = some b) :
    a ∈ l.map Prod.fst := by
  induction l with
  | nil => exact absurd h (by simp [List.lookup])
  | cons p tl ih =>
    rw [List.lookup] at h
    cases hab : a == p.1 with
    | true => simp [beq_iff_eq.mp hab]
    | false =>
      simp only [hab] at h
      exact List.mem_cons_of_mem _ (ih h)

theorem filter_not_mem_cons_lt (l : List Nat) (x : Nat) (seen : List Nat)
    (hx : x ∈ l) (hn : x ∉ seen) :
    (l.filter (fun k => ¬ k ∈ (x :: seen))).length <
      (l.filter (fun k => ¬ k ∈ seen)).length := by
  induction l with
  | nil => cases hx
  | cons a tl ih =>
    by_cases ha : a = x
    · subst ha
      have h1 : (tl.filter (fun k => ¬ k ∈ (a :: seen))).length ≤
          (tl.filter (fun k => ¬ k ∈ seen)).length := by
        refine List.Sublist.length_le (List.monotone_filter_right tl ?_)
        intro k hk
        simp only [decide_eq_true_eq] at hk ⊢
        exact fun hks => hk (List.mem_cons_of_mem _ hks)
      simp only [List.filter_cons]
      rw [if_neg (by simp), if_pos (by simpa using hn)]
      simpa using Nat.lt_succ_of_le h1
    · have hx' : x ∈ tl := by
        rcases List.mem_cons.mp hx with h | h
        · exact absurd h.symm ha
        · exact h
      by_cases hs : a ∈ seen
      · simp only [List.filter_cons]
        rw [if_neg (by simp [hs]), if_neg (by simp [hs])]
        exact ih hx'
      · simp only [List.filter_cons]
        rw [if_pos (by simp [hs, ha]), if_pos (by simpa using hs)]
        simpa using ih hx'

theorem buildPathLoop_mono (entries : List (Nat × HfsEntry)) :
    ∀ (fuel1 fuel2 current : Nat) (seen : List Nat) (parts r : List String),
      buildPathLoop entries fuel1 current seen parts = some r → fuel1 ≤ fuel2 →
      buildPathLoop entries fuel2 current seen parts = some r := by
  intro fuel1
  induction fuel1 with
  | zero =>
    intro f2 c s p r h _
    exact absurd h (by simp [buildPathLoop])
  | succ f ih =>
    intro f2 c s p r h hle
    obtain ⟨f2', rfl⟩ : ∃ k, f2 = k + 1 := ⟨f2 - 1, by omega⟩
    rw [buildPathLoop] at h ⊢
    cases hl : entries.lookup c with
    | none => simp only [hl] at h ⊢; exact h
    | some e =>
      simp only [hl] at h ⊢
      split_ifs at h ⊢ with h1 h2
      · exact h
      · exact h
      · exact ih f2' e.parent (c :: s) (p ++ [e.name]) r h (by omega)

theorem buildPathLoop_terminates (entries : List (Nat × HfsEntry)) :
    ∀ (fuel current : Nat) (seen : List Nat) (parts : List String),
      ((entries.map Prod.fst).filter (fun k => ¬ k ∈ seen)).length < fuel →
      ∃ r, buildPathLoop entries fuel current seen parts = some r := by
  intro fuel
  induction fuel with
  | zero => intro c s p h; omega
  | succ f ih =>
    intro c s p h
    rw [buildPathLoop]
    cases hl : entries.lookup c with
    | none => simp only [hl]; exact ⟨p, rfl⟩
    | some e =>
      simp only [hl]
      by_cases hs : c ∈ s
      · rw [if_pos hs]; exact ⟨p, rfl⟩
      · rw [if_neg hs]
        by_cases hr : e.parent = ROOT_FOLDER_CNID ∨ e.parent = ROOT_PARENT_CNID
        · rw [if_pos hr]; exact ⟨p ++ [e.name], rfl⟩
        · rw [if_neg hr]
          refine ih e.parent (c :: s) (p ++ [e.name]) ?_
          have hmem : c ∈ entries.map Prod.fst := lookup_some_mem_keys hl
          have hlt := filter_not_mem_cons_lt (entries.map Prod.fst) c s hmem hs
          omega

/-- C9: `build_path` terminates for every entries map and every starting
CNID, including maps whose `parent_cnid` chain contains a cycle: with
fuel at least `entries.length + 1` the walk always exits (each CNID is
visited at most once via the `seen` set), the result is independent of
any further fuel, and the returned path is the collected names reversed
and joined with "/". -/
theorem c9_build_path_terminates (entries : List (Nat × HfsEntry))
    (cnid fuel : Nat) (hf : entries.length + 1 ≤ fuel) :
    (∃ parts, buildPathLoop entries fuel cnid [] [] = some parts ∧
      build_path entries cnid = String.intercalate "/" parts.reverse) ∧
    buildPathLoop entries fuel cnid [] [] =
      buildPathLoop entries (entries.length + 1) cnid [] [] := by
  obtain ⟨r, hr⟩ : ∃ r, buildPathLoop entries (entries.length + 1) cnid [] [] = some r := by
    refine buildPathLoop_terminates entries (entries.length + 1) cnid [] [] ?_
    have h1 := List.length_filter_le
      (fun k => decide (¬ k ∈ ([] : List Nat))) (entries.map Prod.fst)
    simp only [List.length_map] at h1
    omega
  have heq : buildPathLoop entries fuel cnid [] [] = some r :=
    buildPathLoop_mono entries (entries.length + 1) fuel cnid [] [] r hr hf
  refine ⟨⟨r, heq, ?_⟩, by rw [heq, hr]⟩
  unfold build_path
  rw [hr]
  rfl

/-- C9 witness: a two-entry catalog whose parent chain is the cycle
5 → 6 → 5; the walk exits after visiting each CNID once and yields
"b/a". -/
theorem c9_build_path_terminates_witness :
    (∃ parts, buildPathLoop
        [(5, ⟨6, "a", .file, 0, 0, 0, 0, []⟩), (6, ⟨5, "b", .file, 0, 0, 0, 0, []⟩)]
        3 5 [] [] = some parts ∧
      build_path
        [(5, ⟨6, "a", .file, 0, 0, 0, 0, []⟩), (6, ⟨5, "b", .file, 0, 0, 0, 0, []⟩)]
        5 = String.intercalate "/" parts.reverse) ∧
    buildPathLoop
        [(5, ⟨6, "a", .file, 0, 0, 0, 0, []⟩), (6, ⟨5, "b", .file, 0, 0, 0, 0, []⟩)]
        3 5 [] [] =
      buildPathLoop
        [(5, ⟨6, "a", .file, 0, 0, 0, 0, []⟩), (6, ⟨5, "b", .file, 0, 0, 0, 0, []⟩)]
        (2 + 1) 5 [] [] :=
  c9_build_path_terminates
    [(5, ⟨6, "a", .file, 0, 0, 0, 0, []⟩), (6, ⟨5, "b", .file, 0, 0, 0, 0, []⟩)]
    5 3 (by decide)

/-! ## C8: DMG recursion into inner .pkg files -/

theorem dmgStep_closed (pkgParse : List Nat → Except String (List FileInfo))
    (h : HfsData) (acc : List FileInfo × List String) (pe : Nat × HfsEntry) :
    dmgStep pkgParse h acc pe =
      (acc.1 ++ pkgContribution pkgParse h pe,
       acc.2 ++ pkgWarningOf pkgParse h pe) := by
  unfold dmgStep pkgContribution pkgWarningOf
  by_cases hc : pe.2.rtype = HfsRecType.file ∧ strEndsWith pe.2.name ".pkg" = true
  · rw [if_pos hc, if_pos hc, if_pos hc]
    cases hp : pkgAttempt pkgParse h pe.1 with
    | error e => simp
    | ok o =>
      cases o with
      | none => exact Prod.ext (by simp) (by simp)
      | some inner => simp
  · rw [if_neg hc, if_neg hc, if_neg hc]
    exact Prod.ext (by simp) (by simp)

theorem dmgFold_closed (pkgParse : List Nat → Except String (List FileInfo))
    (h : HfsData) :
    ∀ (l : List (Nat × HfsEntry)) (acc : List FileInfo × List String),
      l.foldl (dmgStep pkgParse h) acc =
        (acc.1 ++ l.flatMap (pkgContribution pkgParse h),
         acc.2 ++ l.flatMap (pkgWarningOf pkgParse h)) := by
  intro l
  induction l with
  | nil => exact fun acc => Prod.ext (by simp) (by simp)
  | cons pe rest ih =>
    intro acc
    rw [List.foldl_cons, dmgStep_closed, ih]
    exact Prod.ext (by simp) (by simp)

/-- C8: during DMG enumeration, every HFS+ file entry whose name ends in
".pkg" and whose bytes start with "xar!" and parse contributes its inner
entries with paths prefixed "@PKG@/"; a failing inner pkg contributes a
warning instead, and in every case the loop completes with all HFS+
entries still present (the item list is the HFS+ list plus the per-entry
pkg contributions, sorted). -/
theorem c8_dmg_pkg_recursion (pkgParse : List Nat → Except String (List FileInfo))
    (h : HfsData) :
    (dmgLoad pkgParse h).1 =
      sortByPath (get_all_files h.entries ++
        h.entries.flatMap (pkgContribution pkgParse h)) ∧
    (dmgLoad pkgParse h).2 = h.entries.flatMap (pkgWarningOf pkgParse h) ∧
    (∀ fi ∈ get_all_files h.entries, fi ∈ (dmgLoad pkgParse h).1) ∧
    (∀ pe ∈ h.entries, ∀ inner, pe.2.rtype = HfsRecType.file →
      strEndsWith pe.2.name ".pkg" = true →
      pkgAttempt pkgParse h pe.1 = .ok (some inner) →
      ∀ fi ∈ inner,
        { fi with path := "@PKG@/" ++ fi.path } ∈ (dmgLoad pkgParse h).1) ∧
    (∀ pe ∈ h.entries, ∀ e, pe.2.rtype = HfsRecType.file →
      strEndsWith pe.2.name ".pkg" = true →
      pkgAttempt pkgParse h pe.1 = .error e →
      ("WARNING: Failed to read pkg " ++ build_path h.entries pe.1 ++ ": " ++ e) ∈
        (dmgLoad pkgParse h).2) := by
  have hload1 : (dmgLoad pkgParse h).1 =
      sortByPath (get_all_files h.entries ++
        h.entries.flatMap (pkgContribution pkgParse h)) := by
    simp only [dmgLoad, dmgFold_closed]
  have hload2 : (dmgLoad pkgParse h).2 =
      h.entries.flatMap (pkgWarningOf pkgParse h) := by
    simp only [dmgLoad, dmgFold_closed]
    simp
  refine ⟨hload1, hload2, ?_, ?_, ?_⟩
  · intro fi hfi
    rw [hload1, (sortByPath_perm _).mem_iff]
    exact List.mem_append.mpr (Or.inl hfi)
  · intro pe hpe inner hr hends hp fi hfi
    rw [hload1, (sortByPath_perm _).mem_iff]
    refine List.mem_append.mpr (Or.inr ?_)
    rw [List.mem_flatMap]
    refine ⟨pe, hpe, ?_⟩
    unfold pkgContribution
    rw [if_pos ⟨hr, hends⟩, hp]
    exact List.mem_map_of_mem _ hfi
  · intro pe hpe e hr hends hp
    rw [hload2, List.mem_flatMap]
    refine ⟨pe, hpe, ?_⟩
    unfold pkgWarningOf
    rw [if_pos ⟨hr, hends⟩, hp]
    exact List.mem_singleton.mpr rfl

/-- C8 witness: a one-file DMG catalog holding "x.pkg" with XAR magic
bytes; the inner entry appears under "@PKG@/". -/
theorem c8_dmg_pkg_recursion_witness :
    { path := "@PKG@/inner", size := 0, mode := 0o100644, uid := 0, gid := 0,
      is_dir := false, is_symlink := false, symlink_target := none : FileInfo } ∈
      (dmgLoad (fun _ => .ok [⟨"inner", 0, 0o100644, 0, 0, false, false, none⟩])
        ⟨[120, 97, 114, 33, 65, 66, 67, 68], 1,
          [(3, ⟨2, "x.pkg", .file, 0o100644, 0, 0, 8, [(0, 8)]⟩)]⟩).1 :=
  (c8_dmg_pkg_recursion
      (fun _ => .ok [⟨"inner", 0, 0o100644, 0, 0, false, false, none⟩])
      ⟨[120, 97, 114, 33, 65, 66, 67, 68], 1,
        [(3, ⟨2, "x.pkg", .file, 0o100644, 0, 0, 8, [(0, 8)]⟩)]⟩).2.2.2.1
    (3, ⟨2, "x.pkg", .file, 0o100644, 0, 0, 8, [(0, 8)]⟩) (by decide)
    [⟨"inner", 0, 0o100644, 0, 0, false, false, none⟩] rfl (by decide) (by decide)
    ⟨"inner", 0, 0o100644, 0, 0, false, false, none⟩ (by decide)

/-! ## C6: the per-file arrays of the RPM main header -/

theorem lookup_append {α β : Type} [BEq α] (l₁ l₂ : List (α × β)) (a : α) :
    (l₁ ++ l₂).lookup a =
      (match l₁.lookup a with
       | some b => some b
       | none => l₂.lookup a) := by
  induction l₁ with
  | nil => simp [List.lookup]
  | cons p tl ih =>
    obtain ⟨k, v⟩ := p
    rw [List.cons_append, List.lookup_cons, List.lookup_cons]
    cases a == k with
    | true => simp
    | false => simpa using ih

theorem dirIndexes_fold (ds : List String) :
    ∀ (pro : List String) (st : List (String × Nat) × List String × List Nat),
      (∀ (d : String) (k : Nat), st.1.lookup d = some k → st.2.1[k]? = some d) →
      (∀ d, d ∈ st.2.1 → (st.1.lookup d).isSome = true) →
      st.2.1.Nodup →
      List.Sublist st.2.1 pro →
      st.2.2.length = pro.length →
      (∀ (i : Nat) (d : String), pro[i]? = some d →
        ∃ k, st.2.2[i]? = some k ∧ st.2.1[k]? = some d) →
      (∀ (d : String) (k : Nat), (ds.foldl dirIndexStep st).1.lookup d = some k →
        (ds.foldl dirIndexStep st).2.1[k]? = some d) ∧
      (ds.foldl dirIndexStep st).2.1.Nodup ∧
      List.Sublist (ds.foldl dirIndexStep st).2.1 (pro ++ ds) ∧
      (ds.foldl dirIndexStep st).2.2.length = (pro ++ ds).length ∧
      (∀ (i : Nat) (d : String), (pro ++ ds)[i]? = some d →
        ∃ k, (ds.foldl dirIndexStep st).2.2[i]? = some k ∧
          (ds.foldl dirIndexStep st).2.1[k]? = some d) := by
  induction ds with
  | nil =>
    intro pro st h1 _ h3 h4 h5 h6
    simpa using ⟨h1, h3, h4, h5, h6⟩
  | cons d rest ih =>
    intro pro st h1 h2 h3 h4 h5 h6
    rw [List.foldl_cons]
    have hres : ∀ (st' : List (String × Nat) × List String × List Nat),
        st' = dirIndexStep st d →
        (∀ (d' : String) (k : Nat), st'.1.lookup d' = some k → st'.2.1[k]? = some d') →
        (∀ d', d' ∈ st'.2.1 → (st'.1.lookup d').isSome = true) →
        st'.2.1.Nodup →
        List.Sublist st'.2.1 (pro ++ [d]) →
        st'.2.2.length = (pro ++ [d]).length →
        (∀ (i : Nat) (d' : String), (pro ++ [d])[i]? = some d' →
          ∃ k, st'.2.2[i]? = some k ∧ st'.2.1[k]? = some d') →
        (∀ (d' : String) (k : Nat), ((rest.foldl dirIndexStep st').1.lookup d' = some k →
          (rest.foldl dirIndexStep st').2.1[k]? = some d')) ∧
        (rest.foldl dirIndexStep st').2.1.Nodup ∧
        List.Sublist (rest.foldl dirIndexStep st').2.1 (pro ++ d :: rest) ∧
        (rest.foldl dirIndexStep st').2.2.length = (pro ++ d :: rest).length ∧
        (∀ (i : Nat) (d' : String), (pro ++ d :: rest)[i]? = some d' →
          ∃ k, (rest.foldl dirIndexStep st').2.2[i]? = some k ∧
            (rest.foldl dirIndexStep st').2.1[k]? = some d') := by
      intro st' _ g1 g2 g3 g4 g5 g6
      have := ih (pro ++ [d]) st' g1 g2 g3 g4 g5 g6
      rwa [List.append_assoc, List.singleton_append] at this
    cases hlook : st.1.lookup d with
    | some k =>
      -- lookup hit: state unchanged except a new dirindex
      have hstep : dirIndexStep st d = (st.1, st.2.1, st.2.2 ++ [k]) := by
        simp [dirIndexStep, hlook]
      rw [hstep]
      refine hres (st.1, st.2.1, st.2.2 ++ [k]) hstep.symm h1 h2 h3
        (h4.trans (List.sublist_append_left pro [d])) (by simpa using h5) ?_
      intro i d' hd'
      rw [List.getElem?_append] at hd'
      split_ifs at hd' with hi
      · obtain ⟨k', hk', hv'⟩ := h6 i d' hd'
        refine ⟨k', ?_, hv'⟩
        show (st.2.2 ++ [k])[i]? = some k'
        rw [List.getElem?_append, if_pos (by omega)]
        exact hk'
      · -- i ≥ pro.length: the only index is pro.length itself
        have hi2 : i - pro.length < 1 :=
          (List.getElem?_eq_some.mp hd').1.trans_le (by simp)
        have hieq : i = pro.length := by omega
        subst hieq
        have hd2 : d' = d := by have hx := hd'; simp at hx; exact hx.symm
        subst hd2
        refine ⟨k, ?_, h1 d' k hlook⟩
        show (st.2.2 ++ [k])[pro.length]? = some k
        rw [show pro.length = st.2.2.length from h5.symm]
        exact List.getElem?_concat_length st.2.2 k
    | none =>
      -- lookup miss: a fresh dirname is appended everywhere
      have hstep : dirIndexStep st d =
          (st.1 ++ [(d, st.2.1.length)], st.2.1 ++ [d], st.2.2 ++ [st.2.1.length]) := by
        simp [dirIndexStep, hlook]
      rw [hstep]
      refine hres (st.1 ++ [(d, st.2.1.length)], st.2.1 ++ [d], st.2.2 ++ [st.2.1.length])
        hstep.symm ?_ ?_ ?_
        (h4.append (List.Sublist.refl [d])) (by simpa using h5) ?_
      · intro d' k' hk'
        show (st.2.1 ++ [d])[k']? = some d'
        rw [show ((st.1 ++ [(d, st.2.1.length)], st.2.1 ++ [d],
            st.2.2 ++ [st.2.1.length]).1.lookup d' : Option Nat) =
            (st.1 ++ [(d, st.2.1.length)]).lookup d' from rfl] at hk'
        rw [lookup_append] at hk'
        cases hl' : st.1.lookup d' with
        | some k0 =>
          rw [hl'] at hk'
          cases hk'
          have hv := h1 d' k' hl'
          have hb := (List.getElem?_eq_some.mp hv).1
          rw [List.getElem?_append, if_pos hb]
          exact hv
        | none =>
          rw [hl'] at hk'
          rw [List.lookup_cons] at hk'
          cases hdd : d' == d with
          | true =>
            rw [hdd] at hk'
            cases hk'
            rw [beq_iff_eq.mp hdd]
            exact List.getElem?_concat_length st.2.1 d
          | false =>
            rw [hdd] at hk'
            exact absurd hk' (by simp [List.lookup])
      · intro d' hd'
        show ((st.1 ++ [(d, st.2.1.length)]).lookup d').isSome = true
        rcases List.mem_append.mp hd' with hm | hm
        · have hsm := h2 d' hm
          rw [lookup_append]
          cases hl' : st.1.lookup d' with
          | some k0 => simp
          | none => rw [hl'] at hsm; simp at hsm
        · rcases List.mem_singleton.mp hm with rfl
          rw [lookup_append, hlook]
          simp [List.lookup]
      · show (st.2.1 ++ [d]).Nodup
        rw [List.nodup_append]
        refine ⟨h3, List.nodup_singleton d, ?_⟩
        intro d' hd' hm
        rcases List.mem_singleton.mp hm with rfl
        have hsm := h2 d' hd'
        rw [hlook] at hsm
        simp at hsm
      · intro i d' hd'
        rw [List.getElem?_append] at hd'
        split_ifs at hd' with hi
        · obtain ⟨k', hk', hv'⟩ := h6 i d' hd'
          have hb := (List.getElem?_eq_some.mp hv').1
          refine ⟨k', ?_, ?_⟩
          · show (st.2.2 ++ [st.2.1.length])[i]? = some k'
            rw [List.getElem?_append, if_pos (by omega)]
            exact hk'
          · show (st.2.1 ++ [d])[k']? = some d'
            rw [List.getElem?_append, if_pos hb]
            exact hv'
        · have hi2 : i - pro.length < 1 :=
            (List.getElem?_eq_some.mp hd').1.trans_le (by simp)
          have hieq : i = pro.length := by omega
          subst hieq
          have hd2 : d' = d := by have hx := hd'; simp at hx; exact hx.symm
          subst hd2
          refine ⟨st.2.1.length, ?_, List.getElem?_concat_length st.2.1 d'⟩
          show (st.2.2 ++ [st.2.1.length])[pro.length]? = some st.2.1.length
          rw [show pro.length = st.2.2.length from h5.symm]
          exact List.getElem?_concat_length st.2.2 st.2.1.length

/-- C6: for every non-empty file list, the per-file arrays of the main
header satisfy: `dir_list` is the per-file dirnames deduplicated
preserving insertion order (no duplicates, a sublist of the dirname
sequence) with `DIRINDEXES[i]` the index of file i's dirname;
`FILEMD5S[i]` is the MD5 hex of the content for regular files and empty
for directories and symlinks; `FILELINKTOS[i]` is the symlink target
else empty; `FILEINODES[i] = i+1`; `FILEVERIFYFLAGS[i] = 0xFFFFFFFF`;
`FILEDEVICES[i] = 1`; `FILERDEVS[i] = 0`; `FILELANGS[i] = ""`;
`FILEFLAGS[i] = 0`; and the SIZE entry (tag 1009) is the sum of the
content sizes. -/
theorem c6_per_file_arrays (md5hex : List Nat → String) (t : Nat)
    (files : List RFile) (hne : files ≠ []) :
    (buildFileArrays md5hex t files).dir_list.Nodup ∧
    List.Sublist (buildFileArrays md5hex t files).dir_list (files.map dirnameFor) ∧
    (buildFileArrays md5hex t files).dirindexes.length = files.length ∧
    (∀ (i : Nat) (f : RFile), files[i]? = some f →
      (∃ k, (buildFileArrays md5hex t files).dirindexes[i]? = some k ∧
        (buildFileArrays md5hex t files).dir_list[k]? = some (dirnameFor f)) ∧
      (buildFileArrays md5hex t files).basenames[i]? = some (basenameFor f) ∧
      (buildFileArrays md5hex t files).sizes[i]? = some ((contentOf f.kind).length) ∧
      (buildFileArrays md5hex t files).md5s[i]? = some
        (match f.kind with
         | .symlink _ => ""
         | .dir => ""
         | .reg c => md5hex c) ∧
      (buildFileArrays md5hex t files).linktos[i]? = some
        (match f.kind with
         | .symlink target => target
         | _ => "") ∧
      (buildFileArrays md5hex t files).inodes[i]? = some (i + 1) ∧
      (buildFileArrays md5hex t files).verifyflags[i]? = some 0xFFFFFFFF ∧
      (buildFileArrays md5hex t files).devices[i]? = some 1 ∧
      (buildFileArrays md5hex t files).rdevs[i]? = some 0 ∧
      (buildFileArrays md5hex t files).langs[i]? = some "" ∧
      (buildFileArrays md5hex t files).fflags[i]? = some 0 ∧
      (buildFileArrays md5hex t files).mtimes[i]? = some t) ∧
    (∀ m : RpmMeta,
      (1009, HVal.int32 [(files.map (fun f => (contentOf f.kind).length)).sum]) ∈
        buildHeaderEntries md5hex m files t) := by
  have hfold := dirIndexes_fold (files.map dirnameFor) [] ([], [], [])
    (by intro d k h; exact absurd h (by simp [List.lookup]))
    (by intro d h; exact absurd h (by simp))
    (by simp)
    (List.nil_sublist [])
    rfl
    (by intro i d h; exact absurd h (by simp))
  rw [List.nil_append] at hfold
  obtain ⟨F1, F3, F4, F5, F6⟩ := hfold
  refine ⟨F3, F4, ?_, ?_, ?_⟩
  · show (dirIndexes (files.map dirnameFor)).2.2.length = files.length
    rw [show dirIndexes (files.map dirnameFor) =
      (files.map dirnameFor).foldl dirIndexStep ([], [], []) from rfl, F5,
      List.length_map]
  · intro i f hf
    have hib := (List.getElem?_eq_some.mp hf).1
    refine ⟨?_, ?_, ?_, ?_, ?_, ?_, ?_, ?_, ?_, ?_, ?_, ?_⟩
    · exact F6 i (dirnameFor f) (by rw [List.getElem?_map, hf]; rfl)
    · show (files.map basenameFor)[i]? = some (basenameFor f)
      rw [List.getElem?_map, hf]; rfl
    · show (files.map (fun f => (contentOf f.kind).length))[i]? = _
      rw [List.getElem?_map, hf]; rfl
    · rw [show (buildFileArrays md5hex t files).md5s = files.map (fun f =>
        match f.kind with
        | RKind.symlink _ => ""
        | RKind.dir => ""
        | RKind.reg c => md5hex c) from rfl, List.getElem?_map, hf]
      rfl
    · rw [show (buildFileArrays md5hex t files).linktos = files.map (fun f =>
        match f.kind with
        | RKind.symlink target => target
        | _ => "") from rfl, List.getElem?_map, hf]
      rfl
    · show ((List.range files.length).map (· + 1))[i]? = some (i + 1)
      rw [List.getElem?_map, List.getElem?_range hib]; rfl
    · show (files.map (fun _ => (0xFFFFFFFF : Nat)))[i]? = _
      rw [List.getElem?_map, hf]; rfl
    · show (files.map (fun _ => (1 : Nat)))[i]? = _
      rw [List.getElem?_map, hf]; rfl
    · show (files.map (fun _ => (0 : Nat)))[i]? = _
      rw [List.getElem?_map, hf]; rfl
    · show (files.map (fun _ => ("" : String)))[i]? = _
      rw [List.getElem?_map, hf]; rfl
    · show (files.map (fun _ => (0 : Nat)))[i]? = _
      rw [List.getElem?_map, hf]; rfl
    · show (files.map (fun _ => t))[i]? = _
      rw [List.getElem?_map, hf]; rfl
  · intro m
    refine List.mem_append.mpr (Or.inr ?_)
    rw [if_neg hne]
    have hsz : (files.map (fun f => (contentOf f.kind).length)).sum =
        (buildFileArrays md5hex m.compression.length files).sizes.sum := rfl
    simp [buildFileArrays]

/-- C6 witness: two files sharing the dirname "/usr/bin/", the second a
symlink. -/
theorem c6_per_file_arrays_witness :
    (buildFileArrays (fun _ => "H") 7
      [⟨"/usr/bin/a", .reg [1, 2], 0o100644, 0, 0, "root", "root"⟩,
       ⟨"/usr/bin/b", .symlink "a", 0o120777, 0, 0, "root", "root"⟩]).dir_list.Nodup ∧
    List.Sublist
      (buildFileArrays (fun _ => "H") 7
        [⟨"/usr/bin/a", .reg [1, 2], 0o100644, 0, 0, "root", "root"⟩,
         ⟨"/usr/bin/b", .symlink "a", 0o120777, 0, 0, "root", "root"⟩]).dir_list
      (([⟨"/usr/bin/a", .reg [1, 2], 0o100644, 0, 0, "root", "root"⟩,
        ⟨"/usr/bin/b", .symlink "a", 0o120777, 0, 0, "root", "root"⟩] : List RFile).map dirnameFor) ∧
    (buildFileArrays (fun _ => "H") 7
      [⟨"/usr/bin/a", .reg [1, 2], 0o100644, 0, 0, "root", "root"⟩,
       ⟨"/usr/bin/b", .symlink "a", 0o120777, 0, 0, "root", "root"⟩]).dirindexes.length =
      ([⟨"/usr/bin/a", .reg [1, 2], 0o100644, 0, 0, "root", "root"⟩,
       ⟨"/usr/bin/b", .symlink "a", 0o120777, 0, 0, "root", "root"⟩] : List RFile).length ∧
    (∀ (i : Nat) (f : RFile),
      ([⟨"/usr/bin/a", .reg [1, 2], 0o100644, 0, 0, "root", "root"⟩,
       ⟨"/usr/bin/b", .symlink "a", 0o120777, 0, 0, "root", "root"⟩] : List RFile)[i]? = some f →
      (∃ k, (buildFileArrays (fun _ => "H") 7
          [⟨"/usr/bin/a", .reg [1, 2], 0o100644, 0, 0, "root", "root"⟩,
           ⟨"/usr/bin/b", .symlink "a", 0o120777, 0, 0, "root", "root"⟩]).dirindexes[i]? = some k ∧
        (buildFileArrays (fun _ => "H") 7
          [⟨"/usr/bin/a", .reg [1, 2], 0o100644, 0, 0, "root", "root"⟩,
           ⟨"/usr/bin/b", .symlink "a", 0o120777, 0, 0, "root", "root"⟩]).dir_list[k]? =
          some (dirnameFor f)) ∧
      (buildFileArrays (fun _ => "H") 7
        [⟨"/usr/bin/a", .reg [1, 2], 0o100644, 0, 0, "root", "root"⟩,
         ⟨"/usr/bin/b", .symlink "a", 0o120777, 0, 0, "root", "root"⟩]).basenames[i]? =
        some (basenameFor f) ∧
      (buildFileArrays (fun _ => "H") 7
        [⟨"/usr/bin/a", .reg [1, 2], 0o100644, 0, 0, "root", "root"⟩,
         ⟨"/usr/bin/b", .symlink "a", 0o120777, 0, 0, "root", "root"⟩]).sizes[i]? =
        some ((contentOf f.kind).length) ∧
      (buildFileArrays (fun _ => "H") 7
        [⟨"/usr/bin/a", .reg [1, 2], 0o100644, 0, 0, "root", "root"⟩,
         ⟨"/usr/bin/b", .symlink "a", 0o120777, 0, 0, "root", "root"⟩]).md5s[i]? = some
        (match f.kind with
         | .symlink _ => ""
         | .dir => ""
         | .reg c => (fun _ => "H") c) ∧
      (buildFileArrays (fun _ => "H") 7
        [⟨"/usr/bin/a", .reg [1, 2], 0o100644, 0, 0, "root", "root"⟩,
         ⟨"/usr/bin/b", .symlink "a", 0o120777, 0, 0, "root", "root"⟩]).linktos[i]? = some
        (match f.kind with
         | .symlink target => target
         | _ => "") ∧
      (buildFileArrays (fun _ => "H") 7
        [⟨"/usr/bin/a", .reg [1, 2], 0o100644, 0, 0, "root", "root"⟩,
         ⟨"/usr/bin/b", .symlink "a", 0o120777, 0, 0, "root", "root"⟩]).inodes[i]? =
        some (i + 1) ∧
      (buildFileArrays (fun _ => "H") 7
        [⟨"/usr/bin/a", .reg [1, 2], 0o100644, 0, 0, "root", "root"⟩,
         ⟨"/usr/bin/b", .symlink "a", 0o120777, 0, 0, "root", "root"⟩]).verifyflags[i]? =
        some 0xFFFFFFFF ∧
      (buildFileArrays (fun _ => "H") 7
        [⟨"/usr/bin/a", .reg [1, 2], 0o100644, 0, 0, "root", "root"⟩,
         ⟨"/usr/bin/b", .symlink "a", 0o120777, 0, 0, "root", "root"⟩]).devices[i]? =
        some 1 ∧
      (buildFileArrays (fun _ => "H") 7
        [⟨"/usr/bin/a", .reg [1, 2], 0o100644, 0, 0, "root", "root"⟩,
         ⟨"/usr/bin/b", .symlink "a", 0o120777, 0, 0, "root", "root"⟩]).rdevs[i]? =
        some 0 ∧
      (buildFileArrays (fun _ => "H") 7
        [⟨"/usr/bin/a", .reg [1, 2], 0o100644, 0, 0, "root", "root"⟩,
         ⟨"/usr/bin/b", .symlink "a", 0o120777, 0, 0, "root", "root"⟩]).langs[i]? =
        some "" ∧
      (buildFileArrays (fun _ => "H") 7
        [⟨"/usr/bin/a", .reg [1, 2], 0o100644, 0, 0, "root", "root"⟩,
         ⟨"/usr/bin/b", .symlink "a", 0o120777, 0, 0, "root", "root"⟩]).fflags[i]? =
        some 0 ∧
      (buildFileArrays (fun _ => "H") 7
        [⟨"/usr/bin/a", .reg [1, 2], 0o100644, 0, 0, "root", "root"⟩,
         ⟨"/usr/bin/b", .symlink "a", 0o120777, 0, 0, "root", "root"⟩]).mtimes[i]? =
        some 7) ∧
    (∀ m : RpmMeta,
      (1009, HVal.int32
        [(([⟨"/usr/bin/a", .reg [1, 2], 0o100644, 0, 0, "root", "root"⟩,
           ⟨"/usr/bin/b", .symlink "a", 0o120777, 0, 0, "root", "root"⟩] : List RFile).map
            (fun f => (contentOf f.kind).length)).sum]) ∈
        buildHeaderEntries (fun _ => "H") m
          [⟨"/usr/bin/a", .reg [1, 2], 0o100644, 0, 0, "root", "root"⟩,
           ⟨"/usr/bin/b", .symlink "a", 0o120777, 0, 0, "root", "root"⟩] 7) :=
  c6_per_file_arrays (fun _ => "H") 7
    [⟨"/usr/bin/a", .reg [1, 2], 0o100644, 0, 0, "root", "root"⟩,
     ⟨"/usr/bin/b", .symlink "a", 0o120777, 0, 0, "root", "root"⟩] (by decide)

/-! ## C5: the RPM header builder emission loop -/

theorem padTo_length (store : List Nat) (a : Nat) :
    (padTo store a).length = store.length + (a - store.length % a) % a := by
  simp [padTo]

theorem padTo_two_aligned (store : List Nat) : (padTo store 2).length % 2 = 0 := by
  rw [padTo_length]; omega

theorem padTo_four_aligned (store : List Nat) : (padTo store 4).length % 4 = 0 := by
  rw [padTo_length]; omega

theorem pad_le_three (v : HVal) (n : Nat) :
    (alignOf v - n % alignOf v) % alignOf v ≤ 3 := by
  cases v <;> simp [alignOf] <;> omega

theorem emitValue_eq_ok (tag : Nat) (v : HVal)
    (h : supportedEntry (tag, v) = true) :
    emitValue v = .ok (valBytes v, countOf v) := by
  cases v with
  | int16 vs =>
    simp only [supportedEntry, Bool.and_eq_true] at h
    simp [emitValue, valBytes, countOf, h.2]
  | int32 vs =>
    simp only [supportedEntry, Bool.and_eq_true] at h
    simp [emitValue, valBytes, countOf, h.2]
  | int64 vs => simp [supportedEntry] at h
  | str s => rfl
  | strArray vs => rfl
  | i18n s => rfl
  | bin bs => rfl

theorem offset_aligned (v : HVal) (store : List Nat) :
    (padTo store (alignOf v)).length % alignOf v = 0 := by
  cases v with
  | int16 vs => exact padTo_two_aligned store
  | int32 vs => exact padTo_four_aligned store
  | int64 vs => exact padTo_four_aligned store
  | str s =>
    rw [padTo_length, show alignOf (HVal.str s) = 1 from rfl, Nat.mod_one]
  | strArray vs =>
    rw [padTo_length, show alignOf (HVal.strArray vs) = 1 from rfl, Nat.mod_one]
  | i18n s =>
    rw [padTo_length, show alignOf (HVal.i18n s) = 1 from rfl, Nat.mod_one]
  | bin bs =>
    rw [padTo_length, show alignOf (HVal.bin bs) = 1 from rfl, Nat.mod_one]

theorem buildLoop_spec (l : List (Nat × HVal)) :
    ∀ (idx : List IdxEntry) (store : List Nat),
      (∀ e ∈ l, supportedEntry e = true) →
      ∃ (idx' : List IdxEntry) (ext : List Nat),
        buildLoop l idx store = .ok (idx ++ idx', store ++ ext) ∧
        idx'.length = l.length ∧
        (store ++ ext).length ≤ store.length + (l.map entrySizeUB).sum ∧
        store.length ≤ (store ++ ext).length ∧
        (∀ (i : Nat) (p : Nat × HVal), l[i]? = some p →
          ∃ en : IdxEntry, idx'[i]? = some en ∧
            en.tag = p.1 ∧ en.dtype = typeCode p.2 ∧ en.count = countOf p.2 ∧
            en.offset % alignOf p.2 = 0 ∧ en.offset ≤ (store ++ ext).length ∧
            ((store ++ ext).drop en.offset).take (valBytes p.2).length =
              valBytes p.2) := by
  induction l with
  | nil =>
    intro idx store _
    refine ⟨[], [], by simp [buildLoop], rfl, by simp, by simp, ?_⟩
    intro i p hp
    exact absurd hp (by simp)
  | cons e rest ih =>
    intro idx store hsupp
    obtain ⟨tg, v⟩ := e
    have hhead : supportedEntry (tg, v) = true := hsupp _ (List.mem_cons_self _ _)
    have hrest : ∀ e ∈ rest, supportedEntry e = true :=
      fun e he => hsupp e (List.mem_cons_of_mem _ he)
    have hstep : buildLoop ((tg, v) :: rest) idx store =
        buildLoop rest
          (idx ++ [⟨tg, typeCode v, (padTo store (alignOf v)).length, countOf v⟩])
          (padTo store (alignOf v) ++ valBytes v) := by
      rw [buildLoop, emitValue_eq_ok tg v hhead]
    obtain ⟨idx'', ext'', hrun, hlen, hub, hmono, hidx⟩ :=
      ih (idx ++ [⟨tg, typeCode v, (padTo store (alignOf v)).length, countOf v⟩])
        (padTo store (alignOf v) ++ valBytes v) hrest
    have hsplit : (padTo store (alignOf v) ++ valBytes v) ++ ext'' =
        store ++ (List.replicate ((alignOf v - store.length % alignOf v) % alignOf v) 0 ++
          (valBytes v ++ ext'')) := by
      simp [padTo, List.append_assoc]
    refine ⟨⟨tg, typeCode v, (padTo store (alignOf v)).length, countOf v⟩ :: idx'',
      List.replicate ((alignOf v - store.length % alignOf v) % alignOf v) 0 ++
        (valBytes v ++ ext''), ?_, by simpa using hlen, ?_, ?_, ?_⟩
    · rw [hstep, hrun, hsplit]
      simp [List.append_assoc]
    · have h1 : ((padTo store (alignOf v) ++ valBytes v) ++ ext'').length ≤
          (padTo store (alignOf v) ++ valBytes v).length +
            (rest.map entrySizeUB).sum := hub
      have h2 : (padTo store (alignOf v)).length ≤ store.length + 3 :=
        le_trans (by rw [padTo_length]) (by
          have := pad_le_three v store.length
          omega)
      rw [← hsplit]
      simp only [List.map_cons, List.sum_cons, entrySizeUB]
      simp only [List.length_append] at h1 ⊢
      omega
    · rw [← hsplit]
      have : store.length ≤ (padTo store (alignOf v) ++ valBytes v).length := by
        rw [List.length_append, padTo_length]
        omega
      omega
    · intro i p hp
      cases i with
      | zero =>
        rw [List.getElem?_cons_zero, Option.some_inj] at hp
        subst hp
        refine ⟨⟨tg, typeCode v, (padTo store (alignOf v)).length, countOf v⟩,
          List.getElem?_cons_zero, rfl, rfl, rfl, offset_aligned v store, ?_, ?_⟩
        · rw [← hsplit]
          simp only [List.length_append]
          omega
        · rw [← hsplit, List.append_assoc, List.drop_left, List.take_left]
      | succ j =>
        rw [List.getElem?_cons_succ] at hp
        obtain ⟨en, hen, hfacts⟩ := hidx j p hp
        refine ⟨en, by simpa using hen, hfacts.1, hfacts.2.1, hfacts.2.2.1,
          hfacts.2.2.2.1, ?_, ?_⟩
        · rw [← hsplit]; exact hfacts.2.2.2.2.1
        · rw [← hsplit]; exact hfacts.2.2.2.2.2

/-- C5 (counterexample): an INT64 entry defeats the emission match of
`RpmHeaderBuilder.build` (the value is 4-byte aligned but then hits the
`else: raise ValueError` branch), so `build` does not succeed on every
entry list over the claimed sum type. -/
theorem c5_int64_raises :
    headerBuild [(1000, HVal.int64 [0])] = .error "Unsupported header type: 5" := by
  decide

theorem supported_bounds (e : Nat × HVal) (h : supportedEntry e = true) :
    e.1 < 4294967296 ∧ countOf e.2 < 4294967296 := by
  simp only [supportedEntry, Bool.and_eq_true, decide_eq_true_eq] at h
  exact ⟨h.1.1, h.1.2⟩

/-- C5 (amended): on every entry list over the constructible value kinds
(INT16, INT32, STRING, STRING_ARRAY, I18NSTRING, BIN — no INT64, integer
values within `struct.pack` range, header counters in `">I"` range),
`RpmHeaderBuilder.build` succeeds, emits one index entry per value with
the index sorted by tag ascending, offsets padded per type (INT16 to 2
bytes, INT32 to 4, others unaligned), `count` equal to the element count
for integer and string arrays, 1 for STRING/I18NSTRING and the byte
length for BIN, and each value's bytes — strings NUL-terminated — at its
offset in the data store. -/
theorem c5_build_emission (entries : List (Nat × HVal))
    (hsupp : ∀ e ∈ entries, supportedEntry e = true)
    (hn : entries.length < 4294967296)
    (hb : (entries.map entrySizeUB).sum < 4294967296) :
    ∃ (idx : List IdxEntry) (store : List Nat),
      buildLoop (sortEntries entries) [] [] = .ok (idx, store) ∧
      (∃ bytes, headerBuild entries = .ok bytes) ∧
      idx.length = entries.length ∧
      (idx.map IdxEntry.tag).Sorted (· ≤ ·) ∧
      (∀ (i : Nat) (p : Nat × HVal), (sortEntries entries)[i]? = some p →
        ∃ en : IdxEntry, idx[i]? = some en ∧
          en.tag = p.1 ∧ en.dtype = typeCode p.2 ∧ en.count = countOf p.2 ∧
          en.offset % alignOf p.2 = 0 ∧
          (store.drop en.offset).take (valBytes p.2).length = valBytes p.2) := by
  have hperm : (sortEntries entries).Perm entries := by
    unfold sortEntries
    exact List.perm_insertionSort _ entries
  have hsupp' : ∀ e ∈ sortEntries entries, supportedEntry e = true :=
    fun e he => hsupp e (hperm.mem_iff.mp he)
  obtain ⟨idx, ext, hrun, hlen, hub, _, hidx⟩ :=
    buildLoop_spec (sortEntries entries) [] [] hsupp'
  simp only [List.nil_append, List.length_nil, Nat.zero_add] at hrun hub hidx
  have hlensort : (sortEntries entries).length = entries.length := hperm.length_eq
  have hidxlen : idx.length = entries.length := by rw [hlen, hlensort]
  have hextb : ext.length < 4294967296 := by
    have hsum : ((sortEntries entries).map entrySizeUB).sum =
        (entries.map entrySizeUB).sum := (hperm.map entrySizeUB).sum_eq
    omega
  have htags : idx.map IdxEntry.tag = (sortEntries entries).map Prod.fst := by
    apply List.ext_getElem?
    intro i
    rw [List.getElem?_map, List.getElem?_map]
    cases hp : (sortEntries entries)[i]? with
    | none =>
      have hip : (sortEntries entries).length ≤ i := by
        by_contra hc
        push_neg at hc
        have h2 := List.getElem?_eq_getElem hc
        rw [hp] at h2
        exact absurd h2 (by simp)
      rw [List.getElem?_eq_none (by omega)]
      rfl
    | some p =>
      obtain ⟨en, hen, htag, _⟩ := hidx i p hp
      rw [hen]
      simpa using htag
  have hsortedtags : (idx.map IdxEntry.tag).Sorted (· ≤ ·) := by
    rw [htags]
    have hs : (sortEntries entries).Sorted (fun a b => a.1 ≤ b.1) := by
      unfold sortEntries
      exact List.sorted_insertionSort _ entries
    exact List.Pairwise.map Prod.fst (fun a b h => h) hs
  have hall : idx.all (fun en => decide (en.tag < 4294967296) &&
      decide (en.offset < 4294967296) && decide (en.count < 4294967296)) = true := by
    rw [List.all_eq_true]
    intro en hen
    obtain ⟨i, hi⟩ := List.mem_iff_getElem?.mp hen
    have hips : i < (sortEntries entries).length := by
      have := (List.getElem?_eq_some.mp hi).1
      omega
    obtain ⟨p, hp⟩ : ∃ p, (sortEntries entries)[i]? = some p :=
      ⟨_, List.getElem?_eq_getElem hips⟩
    obtain ⟨en', hen', htag, _, hcount, _, hoffb, _⟩ := hidx i p hp
    rw [hi, Option.some_inj] at hen'
    subst hen'
    have hbp := supported_bounds p (hsupp' p (List.mem_iff_getElem?.mpr ⟨i, hp⟩))
    simp only [Bool.and_eq_true, decide_eq_true_eq]
    exact ⟨⟨by omega, by omega⟩, by omega⟩
  have hok : ∃ bytes, headerBuild entries = .ok bytes := by
    simp only [headerBuild, hrun]
    rw [if_pos ⟨by omega, hextb, hall⟩]
    exact ⟨_, rfl⟩
  refine ⟨idx, ext, hrun, hok, hidxlen, hsortedtags, ?_⟩
  intro i p hp
  obtain ⟨en, hen, h1, h2, h3, h4, _, h6⟩ := hidx i p hp
  exact ⟨en, hen, h1, h2, h3, h4, h6⟩

/-- C5 witness: the amended theorem at a concrete two-entry list. -/
theorem c5_build_emission_witness :
    ∃ (idx : List IdxEntry) (store : List Nat),
      buildLoop (sortEntries [(1028, HVal.int32 [5]), (1000, HVal.str "n")]) [] [] =
        .ok (idx, store) ∧
      (∃ bytes, headerBuild [(1028, HVal.int32 [5]), (1000, HVal.str "n")] = .ok bytes) ∧
      idx.length = [(1028, HVal.int32 [5]), (1000, HVal.str "n")].length ∧
      (idx.map IdxEntry.tag).Sorted (· ≤ ·) ∧
      (∀ (i : Nat) (p : Nat × HVal),
        (sortEntries [(1028, HVal.int32 [5]), (1000, HVal.str "n")])[i]? = some p →
        ∃ en : IdxEntry, idx[i]? = some en ∧
          en.tag = p.1 ∧ en.dtype = typeCode p.2 ∧ en.count = countOf p.2 ∧
          en.offset % alignOf p.2 = 0 ∧
          (store.drop en.offset).take (valBytes p.2).length = valBytes p.2) :=
  c5_build_emission [(1028, HVal.int32 [5]), (1000, HVal.str "n")]
    (by decide) (by decide) (by decide)

/-! ## C7: the cpio writer -/

theorem hexRep_length_le : ∀ (k v : Nat), v < 16 ^ k → (hexRep v).length ≤ k := by
  intro k
  induction k with
  | zero =>
    intro v hv
    interval_cases v
    simp [hexRep]
  | succ k ih =>
    intro v hv
    cases v with
    | zero => simp [hexRep]
    | succ n =>
      rw [hexRep]
      have hd : (n + 1) / 16 < 16 ^ k := by
        rw [Nat.div_lt_iff_lt_mul (by omega)]
        calc n + 1 < 16 ^ (k + 1) := hv
        _ = 16 ^ k * 16 := by ring
      have := ih ((n + 1) / 16) hd
      simp only [List.length_append, List.length_cons, List.length_nil]
      omega

theorem pad8hex_length (v : Nat) (h : v < 4294967296) :
    (pad8hex v).length = 8 := by
  have hle := hexRep_length_le 8 v (by norm_num; omega)
  simp only [pad8hex, List.length_append, List.length_replicate]
  omega

theorem hexDigitChar_isHex (n : Nat) (h : n < 16) :
    isHexByte (hexDigitChar n) := by
  unfold hexDigitChar isHexByte
  split_ifs with h10
  · exact Or.inl (by omega)
  · exact Or.inr (by omega)

theorem hexRep_digits (v : Nat) : ∀ b ∈ hexRep v, isHexByte b := by
  induction v using Nat.strong_induction_on with
  | _ v ih =>
    cases v with
    | zero => simp [hexRep]
    | succ n =>
      rw [hexRep]
      intro b hb
      rcases List.mem_append.mp hb with hm | hm
      · exact ih ((n + 1) / 16) (Nat.div_lt_self (by omega) (by omega)) b hm
      · rcases List.mem_singleton.mp hm with rfl
        exact hexDigitChar_isHex _ (Nat.mod_lt _ (by omega))

theorem pad8hex_digits (v : Nat) : ∀ b ∈ pad8hex v, isHexByte b := by
  intro b hb
  rcases List.mem_append.mp hb with hm | hm
  · rcases List.eq_of_mem_replicate hm with rfl
    exact Or.inl (by omega)
  · exact hexRep_digits v b hm

theorem cpioHeader_length (inode mode uid gid nlink mtime filesize devmajor
    devminor rdevmajor rdevminor namesize : Nat)
    (h1 : inode < 4294967296) (h2 : mode < 4294967296) (h3 : uid < 4294967296)
    (h4 : gid < 4294967296) (h5 : nlink < 4294967296) (h6 : mtime < 4294967296)
    (h7 : filesize < 4294967296) (h8 : devmajor < 4294967296)
    (h9 : devminor < 4294967296) (h10 : rdevmajor < 4294967296)
    (h11 : rdevminor < 4294967296) (h12 : namesize < 4294967296) :
    (cpioHeader inode mode uid gid nlink mtime filesize devmajor devminor
      rdevmajor rdevminor namesize).length = 110 := by
  simp only [cpioHeader, List.length_append,
    pad8hex_length _ h1, pad8hex_length _ h2, pad8hex_length _ h3,
    pad8hex_length _ h4, pad8hex_length _ h5, pad8hex_length _ h6,
    pad8hex_length _ h7, pad8hex_length _ h8, pad8hex_length _ h9,
    pad8hex_length _ h10, pad8hex_length _ h11, pad8hex_length _ h12,
    pad8hex_length 0 (by omega)]
  rfl

theorem cpioHeader_digits (inode mode uid gid nlink mtime filesize devmajor
    devminor rdevmajor rdevminor namesize : Nat) :
    ∀ b ∈ cpioHeader inode mode uid gid nlink mtime filesize devmajor
      devminor rdevmajor rdevminor namesize, isHexByte b := by
  intro b hb
  simp only [cpioHeader, List.mem_append] at hb
  rcases hb with ((((((((((((hm | hm) | hm) | hm) | hm) | hm) | hm) | hm) |
      hm) | hm) | hm) | hm) | hm) | hm
  · have hb6 : b ∈ [48, 55, 48, 55, 48, 49] := hm
    have hb7 : b = 48 ∨ b = 55 ∨ b = 48 ∨ b = 55 ∨ b = 48 ∨ b = 49 := by
      simpa using hb6
    unfold isHexByte
    rcases hb7 with rfl | rfl | rfl | rfl | rfl | rfl <;> exact Or.inl (by omega)
  all_goals exact pad8hex_digits _ b hm

theorem cpioHeader_magic (inode mode uid gid nlink mtime filesize devmajor
    devminor rdevmajor rdevminor namesize : Nat) :
    (cpioHeader inode mode uid gid nlink mtime filesize devmajor devminor
      rdevmajor rdevminor namesize).take 6 = asciiOf "070701" := by
  simp only [cpioHeader, List.append_assoc]
  exact List.take_left' (by rfl)

theorem cpioHeader_inode_field (inode mode uid gid nlink mtime filesize
    devmajor devminor rdevmajor rdevminor namesize : Nat)
    (h : inode < 4294967296) :
    ((cpioHeader inode mode uid gid nlink mtime filesize devmajor devminor
      rdevmajor rdevminor namesize).drop 6).take 8 = pad8hex inode := by
  simp only [cpioHeader, List.append_assoc]
  rw [List.drop_left' (show (asciiOf "070701").length = 6 from rfl)]
  exact List.take_left' (pad8hex_length inode h)

theorem cpioHeader_mode_field (inode mode uid gid nlink mtime filesize
    devmajor devminor rdevmajor rdevminor namesize : Nat)
    (hi : inode < 4294967296) (hm : mode < 4294967296) :
    ((cpioHeader inode mode uid gid nlink mtime filesize devmajor devminor
      rdevmajor rdevminor namesize).drop 14).take 8 = pad8hex mode := by
  simp only [cpioHeader, List.append_assoc]
  rw [show (14 : Nat) = 6 + 8 from rfl, ← List.drop_drop,
    List.drop_left' (show (asciiOf "070701").length = 6 from rfl),
    List.drop_left' (pad8hex_length inode hi)]
  exact List.take_left' (pad8hex_length mode hm)

theorem cpioApply_eq (st : CpioWState) (op : CpioOp) :
    cpioApply st op = ⟨st.inode + 1, st.out ++ cpioEntryBytes st.inode op⟩ := by
  cases op with
  | file p c m u g t =>
    simp [cpioApply, cpioAddFile, cpioWriteHeader, cpioEntryBytes, cpioHeader,
      opWrittenMode, opMode, opTypeBits, opUid, opGid, opMtime, opNlink,
      opBody, opPath, opNamesize, pad4, List.append_assoc]
  | dir p m u g t =>
    simp [cpioApply, cpioAddDir, cpioWriteHeader, cpioEntryBytes, cpioHeader,
      opWrittenMode, opMode, opTypeBits, opUid, opGid, opMtime, opNlink,
      opBody, opPath, opNamesize, pad4, List.append_assoc]
  | symlink p tg m u g t =>
    simp [cpioApply, cpioAddSymlink, cpioWriteHeader, cpioEntryBytes, cpioHeader,
      opWrittenMode, opMode, opTypeBits, opUid, opGid, opMtime, opNlink,
      opBody, opPath, opNamesize, pad4, List.append_assoc]

theorem cpioRun_closed : ∀ (ops : List CpioOp) (st : CpioWState),
    cpioRun st ops = ⟨st.inode + ops.length, st.out ++ cpioBlocks st.inode ops⟩ := by
  intro ops
  induction ops with
  | nil =>
    intro st
    simp [cpioRun, cpioBlocks]
  | cons op rest ih =>
    intro st
    show cpioRun (cpioApply st op) rest = _
    rw [cpioApply_eq, ih]
    simp [cpioBlocks, List.append_assoc]
    omega

theorem cpioBlocks_segment : ∀ (ops : List CpioOp) (ino j : Nat) (op : CpioOp),
    ops[j]? = some op →
    ∃ pre post, cpioBlocks ino ops = pre ++ (cpioEntryBytes (ino + j) op ++ post) := by
  intro ops
  induction ops with
  | nil =>
    intro ino j op h
    exact absurd h (by simp)
  | cons op0 rest ih =>
    intro ino j op h
    cases j with
    | zero =>
      rw [List.getElem?_cons_zero, Option.some_inj] at h
      subst h
      exact ⟨[], cpioBlocks (ino + 1) rest, by simp [cpioBlocks]⟩
    | succ i =>
      rw [List.getElem?_cons_succ] at h
      obtain ⟨pre, post, hseg⟩ := ih (ino + 1) i op h
      refine ⟨cpioEntryBytes ino op0 ++ pre, post, ?_⟩
      rw [cpioBlocks, hseg, show ino + 1 + i = ino + (i + 1) from by omega]
      simp [List.append_assoc]

/-- C7: a sequence of `add_*` calls on a fresh writer emits exactly one
SVR4 newc block per call, with the inode auto-incrementing from 1: the
block for call j carries a 110-byte ASCII-hex header with magic
"070701" and inode j+1, a mode that gains the kind's `S_IF*` bits when
the caller's mode lacks file-type bits, `nlink = 2` for directories, the
symlink target written as the entry's content, NUL padding to a 4-byte
boundary after header+name and after content (each block's length is a
multiple of 4), and `finish()` writes the `TRAILER!!!` sentinel. -/
theorem c7_cpio_writer (ops : List CpioOp)
    (hops : ∀ op ∈ ops, cpioOpOk op) (hn : ops.length < 4294967296) :
    (cpioRun ⟨1, []⟩ ops).out = cpioBlocks 1 ops ∧
    (cpioRun ⟨1, []⟩ ops).inode = ops.length + 1 ∧
    (∀ (j : Nat) (op : CpioOp), ops[j]? = some op →
      (∃ pre post, cpioBlocks 1 ops =
        pre ++ (cpioEntryBytes (j + 1) op ++ post)) ∧
      cpioEntryBytes (j + 1) op =
        cpioHeaderOf (j + 1) op ++ (utf8 (opPath op) ++ [0]) ++
          List.replicate (pad4 (110 + opNamesize op)) 0 ++
          opBody op ++ List.replicate (pad4 (opBody op).length) 0 ∧
      (cpioHeaderOf (j + 1) op).length = 110 ∧
      (cpioHeaderOf (j + 1) op).take 6 = asciiOf "070701" ∧
      (∀ b ∈ cpioHeaderOf (j + 1) op, isHexByte b) ∧
      ((cpioHeaderOf (j + 1) op).drop 6).take 8 = pad8hex (j + 1) ∧
      ((cpioHeaderOf (j + 1) op).drop 14).take 8 = pad8hex (opWrittenMode op) ∧
      (opMode op &&& 0o170000 = 0 → opWrittenMode op = opMode op ||| opTypeBits op) ∧
      (¬opMode op &&& 0o170000 = 0 → opWrittenMode op = opMode op) ∧
      (∀ p m u g t, op = CpioOp.dir p m u g t → opNlink op = 2) ∧
      (∀ p tgt m u g t, op = CpioOp.symlink p tgt m u g t → opBody op = utf8 tgt) ∧
      (cpioEntryBytes (j + 1) op).length % 4 = 0) ∧
    (∀ st : CpioWState, (cpioFinish st).out = st.out ++
      cpioHeader st.inode 0 0 0 1 0 0 0 0 0 0 11 ++
      (utf8 "TRAILER!!!" ++ [0]) ++ List.replicate (pad4 (110 + 11)) 0) := by
  refine ⟨by rw [cpioRun_closed]; simp, by rw [cpioRun_closed]; simp [Nat.add_comm], ?_, ?_⟩
  · intro j op hj
    have hmem : op ∈ ops := List.mem_iff_getElem?.mpr ⟨j, hj⟩
    obtain ⟨hm, hu, hg, ht, hbl, hns⟩ := hops op hmem
    have hj32 : j + 1 < 4294967296 := by
      have := (List.getElem?_eq_some.mp hj).1
      omega
    have hwm : opWrittenMode op < 4294967296 := by
      unfold opWrittenMode
      split_ifs
      · have hbit : opTypeBits op < 4294967296 := by
          cases op <;> simp [opTypeBits, sIFREG, sIFDIR, sIFLNK]
        have h32 : (4294967296 : Nat) = 2 ^ 32 := by norm_num
        rw [h32] at *
        exact Nat.or_lt_two_pow hm hbit
      · exact hm
    have hnlink : opNlink op < 4294967296 := by
      cases op <;> simp [opNlink]
    have hhl : (cpioHeaderOf (j + 1) op).length = 110 :=
      cpioHeader_length _ _ _ _ _ _ _ _ _ _ _ _ hj32 hwm hu hg hnlink ht hbl
        (by omega) (by omega) (by omega) (by omega) hns
    have hsegm : ∃ pre post, cpioBlocks 1 ops =
        pre ++ (cpioEntryBytes (j + 1) op ++ post) := by
      obtain ⟨pre, post, hseg⟩ := cpioBlocks_segment ops 1 j op hj
      exact ⟨pre, post, by rw [hseg, Nat.add_comm 1 j]⟩
    refine ⟨hsegm,
      rfl, hhl, cpioHeader_magic _ _ _ _ _ _ _ _ _ _ _ _,
      cpioHeader_digits _ _ _ _ _ _ _ _ _ _ _ _,
      cpioHeader_inode_field _ _ _ _ _ _ _ _ _ _ _ _ hj32,
      cpioHeader_mode_field _ _ _ _ _ _ _ _ _ _ _ _ hj32 hwm,
      fun h => by rw [opWrittenMode, if_pos h],
      fun h => by rw [opWrittenMode, if_neg h],
      ?_, ?_, ?_⟩
    · intro p m u g t hop
      subst hop
      rfl
    · intro p tgt m u g t hop
      subst hop
      rfl
    · show (cpioEntryBytes (j + 1) op).length % 4 = 0
      have hdecomp : (cpioEntryBytes (j + 1) op).length =
          110 + opNamesize op + pad4 (110 + opNamesize op) +
          ((opBody op).length + pad4 (opBody op).length) := by
        simp only [cpioEntryBytes, List.length_append, List.length_replicate,
          List.length_cons, List.length_nil]
        have : (cpioHeader (j + 1) (opWrittenMode op) (opUid op) (opGid op)
            (opNlink op) (opMtime op) (opBody op).length 0 0 0 0
            (opNamesize op)).length = 110 := hhl
        rw [this]
        simp [opNamesize]
        omega
      rw [hdecomp]
      unfold pad4
      omega
  · intro st
    simp [cpioFinish, cpioWriteHeader, List.append_assoc,
      show ((utf8 "TRAILER!!!" ++ [0]).length) = 11 from rfl]

/-- C7 witness: one file, one directory and one symlink written in
sequence. -/
theorem c7_cpio_writer_witness :
    (cpioRun ⟨1, []⟩
      [.file "f" [1, 2, 3] 0o644 0 0 0, .dir "d" 0o755 0 0 0,
       .symlink "l" "f" 0o777 0 0 0]).out =
      cpioBlocks 1
        [.file "f" [1, 2, 3] 0o644 0 0 0, .dir "d" 0o755 0 0 0,
         .symlink "l" "f" 0o777 0 0 0] ∧
    (cpioRun ⟨1, []⟩
      [.file "f" [1, 2, 3] 0o644 0 0 0, .dir "d" 0o755 0 0 0,
       .symlink "l" "f" 0o777 0 0 0]).inode =
      ([.file "f" [1, 2, 3] 0o644 0 0 0, .dir "d" 0o755 0 0 0,
       .symlink "l" "f" 0o777 0 0 0] : List CpioOp).length + 1 ∧
    (∀ (j : Nat) (op : CpioOp),
      ([.file "f" [1, 2, 3] 0o644 0 0 0, .dir "d" 0o755 0 0 0,
       .symlink "l" "f" 0o777 0 0 0] : List CpioOp)[j]? = some op →
      (∃ pre post, cpioBlocks 1
          [.file "f" [1, 2, 3] 0o644 0 0 0, .dir "d" 0o755 0 0 0,
           .symlink "l" "f" 0o777 0 0 0] =
        pre ++ (cpioEntryBytes (j + 1) op ++ post)) ∧
      cpioEntryBytes (j + 1) op =
        cpioHeaderOf (j + 1) op ++ (utf8 (opPath op) ++ [0]) ++
          List.replicate (pad4 (110 + opNamesize op)) 0 ++
          opBody op ++ List.replicate (pad4 (opBody op).length) 0 ∧
      (cpioHeaderOf (j + 1) op).length = 110 ∧
      (cpioHeaderOf (j + 1) op).take 6 = asciiOf "070701" ∧
      (∀ b ∈ cpioHeaderOf (j + 1) op, isHexByte b) ∧
      ((cpioHeaderOf (j + 1) op).drop 6).take 8 = pad8hex (j + 1) ∧
      ((cpioHeaderOf (j + 1) op).drop 14).take 8 = pad8hex (opWrittenMode op) ∧
      (opMode op &&& 0o170000 = 0 → opWrittenMode op = opMode op ||| opTypeBits op) ∧
      (¬opMode op &&& 0o170000 = 0 → opWrittenMode op = opMode op) ∧
      (∀ p m u g t, op = CpioOp.dir p m u g t → opNlink op = 2) ∧
      (∀ p tgt m u g t, op = CpioOp.symlink p tgt m u g t → opBody op = utf8 tgt) ∧
      (cpioEntryBytes (j + 1) op).length % 4 = 0) ∧
    (∀ st : CpioWState, (cpioFinish st).out = st.out ++
      cpioHeader st.inode 0 0 0 1 0 0 0 0 0 0 11 ++
      (utf8 "TRAILER!!!" ++ [0]) ++ List.replicate (pad4 (110 + 11)) 0) :=
  c7_cpio_writer
    [.file "f" [1, 2, 3] 0o644 0 0 0, .dir "d" 0o755 0 0 0,
     .symlink "l" "f" 0o777 0 0 0] (by decide) (by decide)

/-! ## C10: the main header depends on the wall clock -/

set_option maxRecDepth 100000 in
/-- C10: the main header bytes are not a deterministic function of the
package metadata and file list: BUILDTIME is read from the wall clock,
so the same inputs serialized at times 0 and 1 give different headers
(whatever the MD5 function is). -/
theorem c10_header_time_dependent : ∀ md5hex : List Nat → String,
    ∃ t1 t2 : Nat, t1 ≠ t2 ∧
      rpmMainHeader md5hex exMeta [] t1 ≠ rpmMainHeader md5hex exMeta [] t2 :=
  fun md5hex => ⟨0, 1, by decide, by
    have h0 : rpmMainHeader md5hex exMeta [] 0 =
        rpmMainHeader (fun _ => "") exMeta [] 0 := rfl
    have h1 : rpmMainHeader md5hex exMeta [] 1 =
        rpmMainHeader (fun _ => "") exMeta [] 1 := rfl
    rw [h0, h1]
    decide⟩

end Spec2Proof
